import Mathlib

/-!
# Verification development for the `alice` MPC library (façades and first verifier round)

Shallow embedding of

* `crypto/liss/liss.go`            (`Liss.GetResult`)
* `crypto/tss/signer/signer.go`    (`NewSigner`, `Signer.GetResult`)
* `crypto/tss/password/verifier/0_user_handler.go`
  (`newUserHandler0`, `GetRequiredMessageCount`, `HandleMessage`, `buildPeers`)

Conventions of the embedding.

* A Go call that can panic returns `Except GoPanic _`; a Go `(value, error)` pair is a
  Lean pair of `Option`s (`none` is `nil`).
* A `*big.Int` (and a `*BQuadraticForm`, a `*cl.PublicKey`) is a `Ptr`: `none` is the nil
  pointer, `some a` the address `a` of a heap cell.  Pointers to structs that the code
  dereferences unconditionally (receivers, handlers, configs) are modelled by the value
  they point to.
* A Go slice is a `List`; indexing past its length panics.
* A Go map with string keys is a `GoMap`: the list of its entries, whose keys are pairwise
  distinct (`GoMap.WF`).  `range` visits the entries in the order of the list, so the list
  doubles as the (unspecified) iteration order.
* Library calls whose bodies are outside these files are fields of `Externals`.
-/

namespace Alice

/-! ## Go runtime -/

/-- Run-time panics that the embedded code can raise. `nilPointerDereference` is Go's
"invalid memory address or nil pointer dereference". -/
inductive GoPanic where
  | indexOutOfRange
  | makesliceLenOutOfRange
  | nilPointerDereference
  | divisionByZero
  deriving DecidableEq, Repr

/-- Go `error` values returned by the embedded code. `other` stands for any error
produced by a library call. -/
inductive GoError where
  | lissErrNotReady
  | tssErrNotReady
  | tssErrInconsistentPeerNumAndBks
  | tssErrPeerNotFound
  | ErrIndentityPublicKey
  | ErrNoSelfBk
  | ErrInconsistentPublicKey
  | DuplicateMessage
  | other (code : Nat)
  deriving DecidableEq, Repr

deriving instance DecidableEq for Except

/-- A Go pointer: `none` is nil, `some a` is the address of a heap cell. -/
abbrev Ptr := Option Nat

/-- Indexing of a slice, `s[i]`: panics when `i` is not below the length. -/
def sliceAt {α : Type} (s : List α) (i : Nat) : Except GoPanic α :=
  match s[i]? with
  | some a => .ok a
  | none => .error .indexOutOfRange

/-- A Go map with string keys, as the list of its entries. -/
abbrev GoMap (V : Type) := List (String × V)

namespace GoMap

variable {V : Type}

/-- Key list of a map, in iteration order. -/
def keys (m : GoMap V) : List String := m.map Prod.fst

/-- Well-formed maps have pairwise distinct keys. -/
def WF (m : GoMap V) : Prop := (keys m).Nodup

instance (m : GoMap V) : Decidable (WF m) := by unfold WF; infer_instance

/-- The comma-ok lookup `v, ok := m[k]`. -/
def find? : GoMap V → String → Option V
  | [], _ => none
  | (k', v) :: rest, k => if k' = k then some v else find? rest k

/-- The plain lookup `m[k]`, yielding the zero value for a missing key. -/
def index (zero : V) (m : GoMap V) (k : String) : V := (find? m k).getD zero

/-- The assignment `m[k] = v`. -/
def set : GoMap V → String → V → GoMap V
  | [], k, v => [(k, v)]
  | (k', v') :: rest, k, v => if k' = k then (k', v) :: rest else (k', v') :: set rest k v

end GoMap

/-! ## Engine states and the Liss façade (`crypto/liss/liss.go`) -/

/-- Modelled from the spec: the lifecycle states of the engine (`types.State*`), whose
declaration is outside these files: Init, Running, Done, Failed. -/
inductive State where
  | StateInit
  | StateRunning
  | StateDone
  | StateFailed
  deriving DecidableEq, Repr

/-- The record `GroupConfig`; only `Users` and `Threshold` are used (both Go `int`). -/
structure GroupConfig where
  Users : Int
  Threshold : Int
  deriving DecidableEq, Repr

/-- The record `UserResult` of liss.go. -/
structure UserResult where
  Bq : Ptr
  Share : Ptr
  deriving DecidableEq, Repr

/-- The record `Result` of liss.go. -/
structure LissResult where
  PublicKey : Ptr
  Users : List (List (GoMap UserResult))
  deriving DecidableEq, Repr

/-- The fields of `bqDecommitmentHandler` that `GetResult` reads. -/
structure bqDecommitmentHandler where
  configs : List GroupConfig
  shares : List (List (GoMap Ptr))
  shareCommitments : List (List (GoMap Ptr))
  publicKey : Ptr
  deriving DecidableEq, Repr

/-- The dynamic type of the `types.Handler` held by a Liss engine. `other` covers every
handler that is not a `*bqDecommitmentHandler` (the initial `*bqCommitmentHandler`
included). -/
inductive LissHandler where
  | bqDecommitment (rh : bqDecommitmentHandler)
  | other (tag : Nat)
  deriving DecidableEq, Repr

/-- The part of `Liss` (its embedded `MsgMain`) that `GetResult` reads. -/
structure Liss where
  state : State
  handler : LissHandler
  deriving DecidableEq, Repr

/-- `m.GetState()`. -/
def Liss.GetState (m : Liss) : State := m.state

/-- `m.GetHandler()`. -/
def Liss.GetHandler (m : Liss) : LissHandler := m.handler

/-- The innermost loop of `Liss.GetResult` (liss.go:91-96): `entries` are the entries of
`rh.shares[i][j]` still to be visited, `acc` is `users[i][j]` so far. -/
def Liss.GetResult.fill (rh : bqDecommitmentHandler) (i j : Nat) :
    List (String × Ptr) → GoMap UserResult → Except GoPanic (GoMap UserResult)
  | [], acc => .ok acc
  | (k, _) :: rest, acc => do
    let si ← sliceAt rh.shares i
    let sij ← sliceAt si j
    let share := GoMap.index none sij k
    let ci ← sliceAt rh.shareCommitments i
    let cij ← sliceAt ci j
    let bq := GoMap.index none cij k
    Liss.GetResult.fill rh i j rest (GoMap.set acc k { Share := share, Bq := bq })

/-- Body of the `j` loop for one `j` (liss.go:90-96). -/
def Liss.GetResult.user (rh : bqDecommitmentHandler) (i j : Nat) :
    Except GoPanic (GoMap UserResult) := do
  let si ← sliceAt rh.shares i
  let sij ← sliceAt si j
  Liss.GetResult.fill rh i j sij []

/-- The `j` loop (liss.go:89-97), from `j` for `n` more iterations. -/
def Liss.GetResult.users (rh : bqDecommitmentHandler) (i : Nat) :
    Nat → Nat → Except GoPanic (List (GoMap UserResult))
  | _, 0 => .ok []
  | j, n + 1 => do
    let u ← Liss.GetResult.user rh i j
    let us ← Liss.GetResult.users rh i (j + 1) n
    .ok (u :: us)

/-- The `i` loop (liss.go:87-98) over the configs still to be visited. -/
def Liss.GetResult.groups (rh : bqDecommitmentHandler) :
    Nat → List GroupConfig → Except GoPanic (List (List (GoMap UserResult)))
  | _, [] => .ok []
  | i, config :: rest => do
    if config.Users < 0 then throw GoPanic.makesliceLenOutOfRange
    let row ← Liss.GetResult.users rh i 0 config.Users.toNat
    let tl ← Liss.GetResult.groups rh (i + 1) rest
    .ok (row :: tl)

/-- `Liss.GetResult` (liss.go:75-104). -/
def Liss.GetResult (m : Liss) : Except GoPanic (Option LissResult × Option GoError) :=
  if m.GetState ≠ State.StateDone then
    .ok (none, some GoError.lissErrNotReady)
  else
    match m.GetHandler with
    | .other _ => .ok (none, some GoError.lissErrNotReady)
    | .bqDecommitment rh => do
      let users ← Liss.GetResult.groups rh 0 rh.configs
      .ok (some { Users := users, PublicKey := rh.publicKey }, none)

/-! ## Heap of big integers -/

/-- The heap cells holding the values of `big.Int` objects; an address is an index. -/
structure Heap where
  cells : List Int
  deriving DecidableEq, Repr

/-- Value of the big integer at address `a`. -/
def Heap.read (hp : Heap) (a : Nat) : Int := hp.cells.getD a 0

/-- Value behind a pointer (`none` for nil). -/
def Heap.deref (hp : Heap) (p : Ptr) : Option Int := p.map hp.read

/-- In-place mutation of the big integer at address `a` (what `x.Set(v)`, `x.Add(..)`
and the like do to their receiver). -/
def Heap.write (hp : Heap) (a : Nat) (v : Int) : Heap := { cells := hp.cells.set a v }

/-- The expression `new(big.Int).Set(x)`: a fresh cell holding the value of `x`. `Set`
reads through `x`, so a nil pointer (or an address that holds no big integer) panics. -/
def Heap.newSet (hp : Heap) (x : Ptr) : Except GoPanic (Heap × Nat) :=
  match x with
  | none => .error GoPanic.nilPointerDereference
  | some a =>
    if a < hp.cells.length then
      .ok ({ cells := hp.cells ++ [hp.read a] }, hp.cells.length)
    else
      .error GoPanic.nilPointerDereference

/-! ## Elliptic-curve observations -/

/-- The part of an `elliptic.Curve` that is used: `curve.Params().N`. -/
structure Curve where
  N : Int
  deriving DecidableEq, Repr

/-- The observations of an `*ecpointgrouplaw.ECPoint` that the embedded code makes:
`GetCurve()`, `IsIdentity()` and the `*big.Int` returned by `GetX()` (possibly nil). -/
structure ECPoint where
  curve : Curve
  isIdentity : Bool
  x : Ptr
  deriving DecidableEq, Repr

/-- `p.GetCurve()`. -/
def ECPoint.GetCurve (p : ECPoint) : Curve := p.curve

/-- `p.IsIdentity()`. -/
def ECPoint.IsIdentity (p : ECPoint) : Bool := p.isIdentity

/-- `p.GetX()`. -/
def ECPoint.GetX (p : ECPoint) : Ptr := p.x

/-! ## Birkhoff parameters, peer manager, messages of the password verifier -/

/-- The record `birkhoffinterpolation.BkParameter` (abscissa and rank); the embedded code
only passes it around. -/
structure BkParameter where
  x : Int
  rank : Nat
  deriving DecidableEq, Repr

/-- The observations of a `types.PeerManager`: `SelfID()` and `NumPeers()` (a `uint32`). -/
structure PeerManager where
  selfID : String
  numPeers : Nat
  deriving DecidableEq, Repr

/-- `peerManager.SelfID()`. -/
def PeerManager.SelfID (pm : PeerManager) : String := pm.selfID

/-- `peerManager.NumPeers()`. -/
def PeerManager.NumPeers (pm : PeerManager) : Nat := pm.numPeers

/-- Message types of the password verifier named in 0_user_handler.go. -/
inductive MessageType where
  | Type_MsgUser0
  | Type_MsgServer0
  | Type_MsgUser1
  deriving DecidableEq, Repr

/-- The record `BodyServer0`; the field values are opaque tokens. -/
structure BodyServer0 where
  PasswordResponse : Nat
  ServerGProver1 : Nat
  deriving DecidableEq, Repr

/-- The record `BodyUser1`. -/
structure BodyUser1 where
  ShareGProver1 : Nat
  ServerGVerifier1 : Nat
  deriving DecidableEq, Repr

/-- The record `BodyUser0`. -/
structure BodyUser0 where
  PasswordRequest : Nat
  deriving DecidableEq, Repr

/-- The oneof `isMessage_Body` of a verifier `Message`. -/
inductive isMessage_Body where
  | Message_User0 (User0 : BodyUser0)
  | Message_Server0 (Server0 : BodyServer0)
  | Message_User1 (User1 : BodyUser1)
  deriving DecidableEq, Repr

/-- The verifier `Message`; `MsgType` is its field `Type`. -/
structure Message where
  MsgType : MessageType
  Id : String
  Body : isMessage_Body
  deriving DecidableEq, Repr

/-- `msg.GetServer0()`: the Server0 body, or nil for another body. -/
def Message.GetServer0 (msg : Message) : Option BodyServer0 :=
  match msg.Body with
  | .Message_Server0 b => some b
  | _ => none

/-- `msg.GetId()`. -/
def Message.GetId (msg : Message) : String := msg.Id

/-- `msg.GetMessageType()`. -/
def Message.GetMessageType (msg : Message) : MessageType := msg.MsgType

/-! ## Observable effects and library calls -/

/-- Calls that leave the embedded functions, in the order they are made: constructions
of peers, handlers and engines, coefficient computations and outbound sends. Logging is
left out. -/
inductive Effect where
  | ComputeBkCoefficient (bks : List BkParameter) (threshold : Nat) (fieldOrder : Int)
  | newPubkeyHandler (wi : Int)
  | NewMsgMain (selfId : String) (numPeers : Nat)
  | newPeer (id : String) (bk : BkParameter)
  | NewRequester (password : List Nat)
  | MustSend (id : String) (msg : Message)
  deriving DecidableEq, Repr

/-- The library functions and constants whose bodies are outside the embedded files.
Each returns Go's `(value, error)` pair. -/
structure Externals where
  /-- `tss.PasswordThreshold`. -/
  PasswordThreshold : Nat
  /-- `bks.ComputeBkCoefficient(threshold, fieldOrder)`. -/
  ComputeBkCoefficient : List BkParameter → Nat → Int → List Int × Option GoError
  /-- `newPubkeyHandler(expectedPubkey, peerManager, homo, wi, msg)`. -/
  newPubkeyHandler : ECPoint → PeerManager → Nat → Int → List Nat → Option Nat × Option GoError
  /-- `oprf.NewRequester(password)`. -/
  NewRequester : List Nat → Option Nat × Option GoError
  /-- `requester.Compute(passwordResponse)`. -/
  Compute : Option Nat → Nat → Option Int × Option GoError
  /-- `zkproof.NewInteractiveSchnorrProver(share, curve)`. -/
  NewInteractiveSchnorrProver : Option Int → Curve → Option Nat × Option GoError
  /-- `zkproof.NewInteractiveSchnorrVerifier(serverGProver1)`. -/
  NewInteractiveSchnorrVerifier : Nat → Option Nat × Option GoError
  /-- `prover.GetInteractiveSchnorrProver1Message()`. -/
  GetInteractiveSchnorrProver1Message : Option Nat → Nat
  /-- `verifier.GetInteractiveSchnorrVerifier1Message()`. -/
  GetInteractiveSchnorrVerifier1Message : Option Nat → Nat

/-! ## The Signer façade (`crypto/tss/signer/signer.go`) -/

/-- The record `Result` of signer.go. -/
structure SignerResult where
  R : Ptr
  S : Ptr
  deriving DecidableEq, Repr

/-- The fields of `siHandler` that `GetResult` reads: the point `rh.r` and the `*big.Int`
`rh.s` (possibly nil). -/
structure siHandler where
  r : ECPoint
  s : Ptr
  deriving DecidableEq, Repr

/-- The dynamic type of the `types.Handler` held by a Signer engine: the terminal
`*siHandler`, the initial `*pubkeyHandler` (an opaque token), or any other handler. -/
inductive SignerHandler where
  | si (rh : siHandler)
  | pubkey (ph : Option Nat)
  | other (tag : Nat)
  deriving DecidableEq, Repr

/-- The record `Signer`: `ph` and the state and handler of the embedded `MsgMain`. -/
structure Signer where
  ph : Option Nat
  state : State
  handler : SignerHandler
  deriving DecidableEq, Repr

/-- `s.GetState()`. -/
def Signer.GetState (s : Signer) : State := s.state

/-- `s.GetHandler()`. -/
def Signer.GetHandler (s : Signer) : SignerHandler := s.handler

/-- Go's `uint32` addition `a + b`. -/
def uint32Add (a b : Nat) : Nat := (a + b) % 4294967296

/-- Go's `new(big.Int).Mod(x, y)`: the Euclidean modulus; a zero modulus panics. -/
def bigMod (x y : Int) : Except GoPanic Int :=
  if y = 0 then .error GoPanic.divisionByZero else .ok (x % y)

/-- Modelled from the spec: `message.NewMsgMain`, whose body is outside these files; the
engine starts in state Init with the given initial handler. -/
def NewMsgMain (ph : Option Nat) : State × SignerHandler := (State.StateInit, SignerHandler.pubkey ph)

/-- `NewSigner` (signer.go:39-77). The result is Go's `(*Signer, error)` pair together
with the calls made. -/
def NewSigner (ext : Externals) (peerManager : PeerManager) (expectedPubkey : ECPoint)
    (homo : Nat) (secret : Int) (selfBk : BkParameter) (bks : List BkParameter)
    (msg : List Nat) : Except GoPanic ((Option Signer × Option GoError) × List Effect) :=
  let curve := expectedPubkey.GetCurve
  let numPeers := peerManager.NumPeers
  if bks.length ≠ numPeers then
    .ok ((none, some GoError.tssErrInconsistentPeerNumAndBks), [])
  else
    let allBks := [selfBk] ++ bks
    let threshold := uint32Add numPeers 1
    let (scalars, err) := ext.ComputeBkCoefficient allBks threshold curve.N
    let t1 := [Effect.ComputeBkCoefficient allBks threshold curve.N]
    match err with
    | some e => .ok ((none, some e), t1)
    | none => do
      let c ← sliceAt scalars 0
      let wi := secret * c
      let wi ← bigMod wi curve.N
      let (ph, err) := ext.newPubkeyHandler expectedPubkey peerManager homo wi msg
      let t2 := t1 ++ [Effect.newPubkeyHandler wi]
      match err with
      | some e => .ok ((none, some e), t2)
      | none =>
        let mm := NewMsgMain ph
        .ok ((some { ph := ph, state := mm.1, handler := mm.2 }, none),
          t2 ++ [Effect.NewMsgMain peerManager.SelfID numPeers])

/-- `Signer.GetResult` (signer.go:84-100). The two `new(big.Int).Set(..)` read through
their argument and allocate on the heap, so the heap is threaded through and each of them
can panic. -/
def Signer.GetResult (hp : Heap) (s : Signer) :
    Except GoPanic (Heap × Option SignerResult × Option GoError) :=
  if s.GetState ≠ State.StateDone then
    .ok (hp, none, some GoError.tssErrNotReady)
  else
    match s.GetHandler with
    | .si rh => do
      let (hp1, R) ← hp.newSet rh.r.GetX
      let (hp2, S) ← hp1.newSet rh.s
      .ok (hp2, some { R := some R, S := some S }, none)
    | _ => .ok (hp, none, some GoError.tssErrNotReady)

/-! ## First user round of the password verifier (`0_user_handler.go`) -/

/-- The record `peer` of the verifier package: the embedded `message.Peer` (identifier and
per-round receipt mapping) with the Birkhoff parameter and coefficient. -/
structure peer where
  Id : String
  bk : BkParameter
  bkCoefficient : Option Int
  messages : List (MessageType × Message)
  deriving DecidableEq, Repr

/-- Modelled from the spec: `newPeer`, whose body is outside these files. A peer is created
from the known identity and weight, with no coefficient and no message received. -/
def newPeer (id : String) (bk : BkParameter) : peer :=
  { Id := id, bk := bk, bkCoefficient := none, messages := [] }

/-- Modelled from the spec: `peer.GetMessage` (`getMessage(type) -> message | absent`),
whose body is outside these files. -/
def peer.GetMessage (p : peer) (t : MessageType) : Option Message :=
  (p.messages.find? (fun e => e.1 = t)).map Prod.snd

/-- Modelled from the spec: `peer.AddMessage` (`recordMessage`), whose body is outside
these files: it fails with `DuplicateMessage` if a message of that type was already
recorded for the current round; otherwise it stores the message and succeeds. -/
def peer.AddMessage (p : peer) (msg : Message) : peer × Option GoError :=
  match p.GetMessage msg.GetMessageType with
  | some _ => (p, some GoError.DuplicateMessage)
  | none => ({ p with messages := p.messages ++ [(msg.GetMessageType, msg)] }, none)

/-- The record `userHandler0`. -/
structure userHandler0 where
  peerManager : PeerManager
  publicKey : ECPoint
  peers : GoMap peer
  bks : GoMap BkParameter
  curve : Curve
  passwordRequester : Option Nat
  share : Option Int
  serverGVerifier : Option Nat
  shareGProver : Option Nat
  deriving DecidableEq, Repr

/-- The loop `for i, co := range gots { peers[i].bkCoefficient = co }`
(0_user_handler.go:176-178), from index `i` over the coefficients still to be visited. -/
def buildPeers.assign : List peer → Nat → List Int → Except GoPanic (List peer)
  | peers, _, [] => .ok peers
  | peers, i, co :: rest => do
    let p ← sliceAt peers i
    buildPeers.assign (peers.set i { p with bkCoefficient := some co }) (i + 1) rest

/-- The loop `for _, p := range peers { peerMaps[p.Id] = p }` (0_user_handler.go:182-184). -/
def buildPeers.peerMaps (peers : List peer) : GoMap peer :=
  peers.foldl (fun m p => GoMap.set m p.Id p) []

/-- `buildPeers` (0_user_handler.go:154-186). The entries of `bks` are visited in list
order by the `range` of line 167. -/
def buildPeers (ext : Externals) (selfId : String) (fieldOrder : Int)
    (bks : GoMap BkParameter) :
    Except GoPanic ((GoMap peer × Option GoError) × List Effect) :=
  match GoMap.find? bks selfId with
  | none => .ok (([], some GoError.ErrNoSelfBk), [])
  | some _ =>
    let allBKs := bks.map (fun e => e.2)
    let peers := bks.map (fun e => newPeer e.1 e.2)
    let t1 := bks.map (fun e => Effect.newPeer e.1 e.2)
    let (gots, err) := ext.ComputeBkCoefficient allBKs ext.PasswordThreshold fieldOrder
    let t2 := t1 ++ [Effect.ComputeBkCoefficient allBKs ext.PasswordThreshold fieldOrder]
    match err with
    | some e => .ok (([], some e), t2)
    | none => do
      let peers ← buildPeers.assign peers 0 gots
      .ok ((buildPeers.peerMaps peers, none), t2)

/-- `newUserHandler0` (0_user_handler.go:51-78). -/
def newUserHandler0 (ext : Externals) (publicKey : ECPoint) (peerManager : PeerManager)
    (bks : GoMap BkParameter) (password : List Nat) :
    Except GoPanic ((Option userHandler0 × Option GoError) × List Effect) :=
  if publicKey.IsIdentity then
    .ok ((none, some GoError.ErrIndentityPublicKey), [])
  else do
    let curve := publicKey.GetCurve
    let ((peers, err), t1) ← buildPeers ext peerManager.SelfID curve.N bks
    match err with
    | some e => .ok ((none, some e), t1)
    | none =>
      let (requester, err) := ext.NewRequester password
      let t2 := t1 ++ [Effect.NewRequester password]
      match err with
      | some e => .ok ((none, some e), t2)
      | none =>
        .ok ((some {
          publicKey := publicKey
          peerManager := peerManager
          peers := peers
          bks := bks
          curve := curve
          passwordRequester := requester
          share := none
          serverGVerifier := none
          shareGProver := none }, none), t2)

/-- `userHandler0.MessageType` (0_user_handler.go:80-82). -/
def userHandler0.MessageType (_p : userHandler0) : MessageType := MessageType.Type_MsgServer0

/-- `userHandler0.GetRequiredMessageCount` (0_user_handler.go:84-86). -/
def userHandler0.GetRequiredMessageCount (_p : userHandler0) : Nat := 1

/-- `userHandler0.IsHandled` (0_user_handler.go:88-95). -/
def userHandler0.IsHandled (p : userHandler0) (id : String) : Bool :=
  match GoMap.find? p.peers id with
  | none => false
  | some peer => (peer.GetMessage p.MessageType).isSome

/-- `userHandler0.HandleMessage` (0_user_handler.go:97-136): the handler after the call,
the returned error and the calls made. The peer found under `id` is a pointer into
`p.peers`, so `AddMessage` updates the entry of the map. -/
def userHandler0.HandleMessage (ext : Externals) (p : userHandler0) (message : Message) :
    Except GoPanic (userHandler0 × Option GoError × List Effect) :=
  let msg := message
  let server0 := msg.GetServer0
  let id := msg.GetId
  match GoMap.find? p.peers id with
  | none => .ok (p, some GoError.tssErrPeerNotFound, [])
  | some peer =>
    match server0 with
    | none => .error GoPanic.nilPointerDereference
    | some server0 =>
      let (share, err) := ext.Compute p.passwordRequester server0.PasswordResponse
      let p := { p with share := share }
      match err with
      | some e => .ok (p, some e, [])
      | none =>
        let (prover, err) := ext.NewInteractiveSchnorrProver p.share p.curve
        let p := { p with shareGProver := prover }
        match err with
        | some e => .ok (p, some e, [])
        | none =>
          let (verifier, err) := ext.NewInteractiveSchnorrVerifier server0.ServerGProver1
          let p := { p with serverGVerifier := verifier }
          match err with
          | some e => .ok (p, some e, [])
          | none =>
            let sent := Effect.MustSend message.GetId {
              MsgType := MessageType.Type_MsgUser1
              Id := p.peerManager.SelfID
              Body := isMessage_Body.Message_User1 {
                ShareGProver1 := ext.GetInteractiveSchnorrProver1Message p.shareGProver
                ServerGVerifier1 := ext.GetInteractiveSchnorrVerifier1Message p.serverGVerifier } }
            let (peer, err) := peer.AddMessage msg
            .ok ({ p with peers := GoMap.set p.peers id peer }, err, [sent])

/-! ## Conditions used in the statements -/

/-- The group configuration at index `i` (zero value when out of range). -/
def bqDecommitmentHandler.config (rh : bqDecommitmentHandler) (i : Nat) : GroupConfig :=
  rh.configs.getD i { Users := 0, Threshold := 0 }

/-- The map `rh.shares[i][j]` (empty when out of range). -/
def bqDecommitmentHandler.share (rh : bqDecommitmentHandler) (i j : Nat) : GoMap Ptr :=
  (rh.shares.getD i []).getD j []

/-- The map `rh.shareCommitments[i][j]` (empty when out of range). -/
def bqDecommitmentHandler.shareCommitment (rh : bqDecommitmentHandler) (i j : Nat) :
    GoMap Ptr :=
  (rh.shareCommitments.getD i []).getD j []

/-- For every group `i`, `shares[i]` has at least `configs[i].Users` entries. -/
def bqDecommitmentHandler.SharesCover (rh : bqDecommitmentHandler) : Prop :=
  ∀ i, i < rh.configs.length →
    i < rh.shares.length ∧ (rh.config i).Users ≤ ((rh.shares.getD i []).length : Int)

/-- For every group `i`, `configs[i].Users` is not negative and `shareCommitments[i]` has at
least `configs[i].Users` entries. -/
def bqDecommitmentHandler.CommitmentsCover (rh : bqDecommitmentHandler) : Prop :=
  ∀ i, i < rh.configs.length →
    0 ≤ (rh.config i).Users ∧ i < rh.shareCommitments.length ∧
      (rh.config i).Users ≤ ((rh.shareCommitments.getD i []).length : Int)

instance (rh : bqDecommitmentHandler) : Decidable rh.SharesCover := by
  unfold bqDecommitmentHandler.SharesCover; infer_instance

instance (rh : bqDecommitmentHandler) : Decidable rh.CommitmentsCover := by
  unfold bqDecommitmentHandler.CommitmentsCover; infer_instance

/-- The entry that `Liss.GetResult` stores under key `k` of `users[i][j]`. -/
def bqDecommitmentHandler.userResult (rh : bqDecommitmentHandler) (i j : Nat) (k : String) :
    UserResult :=
  { Share := GoMap.index none (rh.share i j) k, Bq := GoMap.index none (rh.shareCommitment i j) k }

/-! ## Concrete inputs used by the witnesses and counterexamples -/

/-- A terminal Liss handler with one group of one user whose `shares` slice is empty. -/
def sampleNoShares : bqDecommitmentHandler :=
  { configs := [{ Users := 1, Threshold := 1 }], shares := [], shareCommitments := [],
    publicKey := none }

/-- A terminal Liss handler with one group of one user holding one share under key `k`
(big integer at address 0) and an empty `shareCommitments` slice. -/
def sampleNoCommitments : bqDecommitmentHandler :=
  { configs := [{ Users := 1, Threshold := 1 }], shares := [[[("k", some 0)]]],
    shareCommitments := [], publicKey := some 2 }

/-- A terminal Liss handler with one group of two users, each holding one share and one
commitment. -/
def sampleDecommitment : bqDecommitmentHandler :=
  { configs := [{ Users := 2, Threshold := 2 }],
    shares := [[[("k", some 0)], [("l", some 1)]]],
    shareCommitments := [[[("k", some 3)], [("l", some 4)]]],
    publicKey := some 2 }

/-- A heap with five big integers, at addresses 0 to 4. -/
def sampleHeap : Heap := { cells := [5, 6, 7, 8, 9] }

/-- The share pointer stored under key `k` for group 0, user 0 of a Liss result. -/
def LissResult.shareOf (r : LissResult) : Ptr :=
  (GoMap.index { Bq := none, Share := none } ((r.Users.getD 0 []).getD 0 []) "k").Share

/-- Stand-ins for the library calls, used at concrete inputs only: the coefficient of a
parameter is its abscissa, every constructor succeeds. -/
def sampleExternals : Externals :=
  { PasswordThreshold := 2
    ComputeBkCoefficient := fun bks _ _ => (bks.map (fun b => b.x), none)
    newPubkeyHandler := fun _ _ _ wi _ => (some wi.toNat, none)
    NewRequester := fun pw => (some pw.length, none)
    Compute := fun _ resp => (some (resp : Int), none)
    NewInteractiveSchnorrProver := fun share _ => (some (share.getD 0).toNat, none)
    NewInteractiveSchnorrVerifier := fun g => (some g, none)
    GetInteractiveSchnorrProver1Message := fun p => p.getD 0
    GetInteractiveSchnorrVerifier1Message := fun v => v.getD 0 }

/-- A non-identity public key on a curve of order 11. -/
def samplePubkey : ECPoint := { curve := { N := 11 }, isIdentity := false, x := some 0 }

/-- A terminal Signer handler whose `r.GetX()` and `s` are the big integers at addresses 0
and 1. -/
def sampleSi : siHandler := { r := samplePubkey, s := some 1 }

/-- A terminal Signer handler whose `s` is nil. -/
def sampleSiNilS : siHandler := { r := samplePubkey, s := none }

/-- Birkhoff parameters of three parties: the user `id-0` and two more. -/
def sampleBks3 : GoMap BkParameter :=
  [("id-0", { x := 1, rank := 0 }), ("id-1", { x := 2, rank := 0 }),
   ("id-2", { x := 3, rank := 0 })]

/-- Birkhoff parameters of the user `id-0` and the server `id-1`. -/
def sampleBks2 : GoMap BkParameter :=
  [("id-0", { x := 1, rank := 0 }), ("id-1", { x := 2, rank := 0 })]

/-- The peer manager of the user `id-0` with one other peer. -/
def samplePeerManager : PeerManager := { selfID := "id-0", numPeers := 1 }

/-- A Server0 message from the server `id-1`. -/
def sampleServer0 : Message :=
  { MsgType := MessageType.Type_MsgServer0, Id := "id-1",
    Body := isMessage_Body.Message_Server0 { PasswordResponse := 7, ServerGProver1 := 8 } }

/-- Another Server0 message from the same server, with a different password response. -/
def sampleServer0Again : Message :=
  { MsgType := MessageType.Type_MsgServer0, Id := "id-1",
    Body := isMessage_Body.Message_Server0 { PasswordResponse := 9, ServerGProver1 := 8 } }

/-- The handler that `newUserHandler0` builds for the user `id-0` and the server `id-1`
with the stand-in library calls. -/
def sampleHandlerFresh : userHandler0 :=
  { peerManager := samplePeerManager
    publicKey := samplePubkey
    peers := [("id-0", { Id := "id-0", bk := { x := 1, rank := 0 }, bkCoefficient := some 1,
                         messages := [] }),
              ("id-1", { Id := "id-1", bk := { x := 2, rank := 0 }, bkCoefficient := some 2,
                         messages := [] })]
    bks := sampleBks2
    curve := { N := 11 }
    passwordRequester := some 0
    share := none
    serverGVerifier := none
    shareGProver := none }

/-- The handler after `sampleServer0` has been handled once: the message is recorded for
`id-1`, the share is 7. -/
def sampleHandlerRecorded : userHandler0 :=
  { sampleHandlerFresh with
    peers := [("id-0", { Id := "id-0", bk := { x := 1, rank := 0 }, bkCoefficient := some 1,
                         messages := [] }),
              ("id-1", { Id := "id-1", bk := { x := 2, rank := 0 }, bkCoefficient := some 2,
                         messages := [(MessageType.Type_MsgServer0, sampleServer0)] })]
    share := some 7
    serverGVerifier := some 8
    shareGProver := some 7 }

/-- The User1 message that the user sends to the server in reply to a Server0 message with
the given prover and verifier tokens. -/
def sampleUser1 (prover verifier : Nat) : Message :=
  { MsgType := MessageType.Type_MsgUser1, Id := "id-0",
    Body := isMessage_Body.Message_User1
      { ShareGProver1 := prover, ServerGVerifier1 := verifier } }


/-! ## Lemmas on the Go runtime model -/

theorem sliceAt_eq_ok {α : Type} (s : List α) (i : Nat) (a : α) (h : s[i]? = some a) :
    sliceAt s i = .ok a := by
  simp [sliceAt, h]

theorem sliceAt_lt {α : Type} (s : List α) (i : Nat) (d : α) (h : i < s.length) :
    sliceAt s i = .ok (s.getD i d) := by
  apply sliceAt_eq_ok
  simp [List.getD, List.getElem?_eq_getElem h]

theorem sliceAt_ge {α : Type} (s : List α) (i : Nat) (h : s.length ≤ i) :
    sliceAt s i = .error GoPanic.indexOutOfRange := by
  have : s[i]? = none := by simp [h]
  simp [sliceAt, this]

namespace GoMap

variable {V : Type}

theorem find_set (m : GoMap V) (k : String) (v : V) (k' : String) :
    find? (set m k v) k' = if k = k' then some v else find? m k' := by
  induction m with
  | nil => simp [set, find?]
  | cons e rest ih =>
    obtain ⟨a, b⟩ := e
    by_cases h : a = k
    · subst h
      by_cases h' : a = k' <;> simp [set, find?, h']
    · by_cases h' : a = k'
      · subst h'
        have : ¬ k = a := fun e => h e.symm
        simp [set, find?, h, this]
      · simp [set, find?, h, h', ih]

theorem mem_keys_set (m : GoMap V) (k : String) (v : V) (k' : String) :
    k' ∈ keys (set m k v) ↔ k' = k ∨ k' ∈ keys m := by
  induction m with
  | nil => simp [set, keys]
  | cons e rest ih =>
    obtain ⟨a, b⟩ := e
    by_cases h : a = k
    · subst h
      simp [set, keys]
    · simp only [keys] at ih
      simp [set, keys, h, ih]
      tauto

theorem WF_set (m : GoMap V) (k : String) (v : V) (h : WF m) : WF (set m k v) := by
  induction m with
  | nil => simp [set, WF, keys]
  | cons e rest ih =>
    obtain ⟨a, b⟩ := e
    by_cases hk : a = k
    · subst hk
      simpa [set, WF, keys] using h
    · have h' : a ∉ keys rest ∧ WF rest := by simpa [WF, keys] using h
      have h1 : WF (set rest k v) := ih h'.2
      have h2 : a ∉ keys (set rest k v) := by
        rw [mem_keys_set]
        intro hc
        rcases hc with hc | hc
        · exact hk hc
        · exact h'.1 hc
      simp only [set, hk, if_false]
      simp only [WF, keys, List.map_cons, List.nodup_cons]
      exact ⟨h2, h1⟩

theorem find_eq_none_iff (m : GoMap V) (k : String) : find? m k = none ↔ k ∉ keys m := by
  induction m with
  | nil => simp [find?, keys]
  | cons e rest ih =>
    obtain ⟨a, b⟩ := e
    by_cases h : a = k
    · subst h
      simp [find?, keys]
    · have h' : ¬ k = a := fun e => h e.symm
      simp only [keys] at ih
      simp [find?, keys, h, h', ih]

theorem set_of_find (m : GoMap V) (k : String) (v : V) (h : find? m k = some v) :
    set m k v = m := by
  induction m with
  | nil => simp [find?] at h
  | cons e rest ih =>
    obtain ⟨a, b⟩ := e
    by_cases hk : a = k
    · subst hk
      simp [find?] at h
      simp [set, h]
    · simp [find?, hk] at h
      simp [set, hk, ih h]

theorem set_of_not_mem (m : GoMap V) (k : String) (v : V) (h : k ∉ keys m) :
    set m k v = m ++ [(k, v)] := by
  induction m with
  | nil => simp [set]
  | cons e rest ih =>
    obtain ⟨a, b⟩ := e
    have h' : ¬ k = a ∧ k ∉ keys rest := by simpa [keys] using h
    have hk : ¬ a = k := fun e => h'.1 e.symm
    simp [set, hk, ih h'.2]

/-- Lookup after the loop `for each e: m[e.1] = f e.1`. -/
theorem find_foldl_set (f : String → V) (es : List (String × Ptr)) (acc : GoMap V)
    (k : String) :
    find? (es.foldl (fun a e => set a e.1 (f e.1)) acc) k =
      if k ∈ es.map Prod.fst then some (f k) else find? acc k := by
  induction es generalizing acc with
  | nil => simp
  | cons e rest ih =>
    simp only [List.foldl_cons, ih, find_set, List.map_cons, List.mem_cons]
    by_cases h1 : k ∈ rest.map Prod.fst
    · simp [h1]
    · by_cases h2 : e.1 = k
      · subst h2; simp
      · have : ¬ k = e.1 := fun e => h2 e.symm
        simp [h1, h2, this]

theorem mem_keys_foldl_set (f : String → V) (es : List (String × Ptr)) (acc : GoMap V)
    (k : String) :
    k ∈ keys (es.foldl (fun a e => set a e.1 (f e.1)) acc) ↔
      k ∈ keys acc ∨ k ∈ es.map Prod.fst := by
  induction es generalizing acc with
  | nil => simp
  | cons e rest ih =>
    simp only [List.foldl_cons, ih, mem_keys_set, List.map_cons, List.mem_cons]
    tauto

theorem WF_foldl_set (f : String → V) (es : List (String × Ptr)) (acc : GoMap V)
    (h : WF acc) : WF (es.foldl (fun a e => set a e.1 (f e.1)) acc) := by
  induction es generalizing acc with
  | nil => simpa using h
  | cons e rest ih =>
    simp only [List.foldl_cons]
    exact ih _ (WF_set _ _ _ h)

end GoMap

/-! ## `Liss.GetResult` -/

theorem Liss.GetResult.fill_ok (rh : bqDecommitmentHandler) (i j : Nat)
    (hi : i < rh.shares.length) (hj : j < (rh.shares.getD i []).length)
    (hi' : i < rh.shareCommitments.length) (hj' : j < (rh.shareCommitments.getD i []).length)
    (es : List (String × Ptr)) (acc : GoMap UserResult) :
    Liss.GetResult.fill rh i j es acc =
      .ok (es.foldl (fun a e => GoMap.set a e.1 (rh.userResult i j e.1)) acc) := by
  induction es generalizing acc with
  | nil => simp [Liss.GetResult.fill]
  | cons e rest ih =>
    obtain ⟨k, v⟩ := e
    simp only [Liss.GetResult.fill, sliceAt_lt _ _ [] hi, sliceAt_lt _ _ [] hj,
      sliceAt_lt _ _ [] hi', sliceAt_lt _ _ [] hj', bind, Except.bind, List.foldl_cons]
    rw [ih]
    rfl

theorem Liss.GetResult.user_ok (rh : bqDecommitmentHandler) (i j : Nat)
    (hi : i < rh.shares.length) (hj : j < (rh.shares.getD i []).length)
    (hi' : i < rh.shareCommitments.length) (hj' : j < (rh.shareCommitments.getD i []).length) :
    Liss.GetResult.user rh i j =
      .ok ((rh.share i j).foldl (fun a e => GoMap.set a e.1 (rh.userResult i j e.1)) []) := by
  simp only [Liss.GetResult.user, sliceAt_lt _ _ [] hi, sliceAt_lt _ _ [] hj, bind, Except.bind]
  rw [Liss.GetResult.fill_ok rh i j hi hj hi' hj']
  rfl

theorem Liss.GetResult.users_ok (rh : bqDecommitmentHandler) (i : Nat)
    (U : Nat → GoMap UserResult) (n : Nat) :
    ∀ j, (∀ t, t < n → Liss.GetResult.user rh i (j + t) = .ok (U (j + t))) →
      Liss.GetResult.users rh i j n = .ok ((List.range n).map (fun t => U (j + t))) := by
  induction n with
  | zero => intro j _; rfl
  | succ n ih =>
    intro j h
    have h0 := h 0 (Nat.succ_pos n)
    have hres := ih (j + 1) (fun t ht => by
      have := h (t + 1) (Nat.succ_lt_succ ht)
      rw [show j + 1 + t = j + (t + 1) by omega]
      exact this)
    simp only [Nat.add_zero] at h0
    simp only [Liss.GetResult.users, h0, hres, bind, Except.bind, List.range_succ_eq_map,
      List.map_cons, List.map_map, Nat.add_zero]
    congr 2
    apply List.map_congr_left
    intro t _
    simp only [Function.comp, Nat.succ_eq_add_one]
    rw [show j + 1 + t = j + (t + 1) by omega]

theorem Liss.GetResult.groups_ok (rh : bqDecommitmentHandler)
    (G : Nat → List (GoMap UserResult)) (cfgs : List GroupConfig) :
    ∀ i, (∀ t, t < cfgs.length →
        0 ≤ (cfgs.getD t { Users := 0, Threshold := 0 }).Users ∧
        Liss.GetResult.users rh (i + t) 0
          (cfgs.getD t { Users := 0, Threshold := 0 }).Users.toNat = .ok (G (i + t))) →
      Liss.GetResult.groups rh i cfgs = .ok ((List.range cfgs.length).map (fun t => G (i + t))) := by
  induction cfgs with
  | nil => intro i _; rfl
  | cons c rest ih =>
    intro i h
    have h0 := h 0 (by simp)
    have hres := ih (i + 1) (fun t ht => by
      have := h (t + 1) (by simpa using ht)
      rw [show i + 1 + t = i + (t + 1) by omega]
      simpa using this)
    simp only [List.getD_cons_zero, Nat.add_zero] at h0
    have hneg : ¬ c.Users < 0 := not_lt.mpr h0.1
    simp only [Liss.GetResult.groups, hneg, h0.2, hres, bind, Except.bind, pure, Except.pure,
      List.length_cons, List.range_succ_eq_map, List.map_cons, List.map_map, Nat.add_zero,
      if_false]
    congr 2
    apply List.map_congr_left
    intro t _
    simp only [Function.comp, Nat.succ_eq_add_one]
    rw [show i + 1 + t = i + (t + 1) by omega]

/-- Under the two cover conditions the loops of `Liss.GetResult` complete, and the slice
they build is described entry by entry. -/
theorem Liss.GetResult.groups_covered (rh : bqDecommitmentHandler)
    (hs : rh.SharesCover) (hc : rh.CommitmentsCover) :
    Liss.GetResult.groups rh 0 rh.configs = .ok ((List.range rh.configs.length).map (fun i =>
      (List.range (rh.config i).Users.toNat).map (fun j =>
        (rh.share i j).foldl (fun a e => GoMap.set a e.1 (rh.userResult i j e.1)) []))) := by
  have h := Liss.GetResult.groups_ok rh (fun i =>
      (List.range (rh.config i).Users.toNat).map (fun j =>
        (rh.share i j).foldl (fun a e => GoMap.set a e.1 (rh.userResult i j e.1)) []))
    rh.configs 0 (by
      intro i hi
      obtain ⟨hsi, hsl⟩ := hs i hi
      obtain ⟨h0, hci, hcl⟩ := hc i hi
      refine ⟨h0, ?_⟩
      simp only [Nat.zero_add]
      have hu := Liss.GetResult.users_ok rh i (fun j =>
        (rh.share i j).foldl (fun a e => GoMap.set a e.1 (rh.userResult i j e.1)) [])
        (rh.config i).Users.toNat 0 (by
          intro t ht
          have ht' : (t : Int) < (rh.config i).Users := by
            have := Int.toNat_of_nonneg h0
            omega
          apply Liss.GetResult.user_ok rh i (0 + t) hsi _ hci _ <;> omega)
      simpa [bqDecommitmentHandler.config] using hu)
  simpa using h

theorem Liss.GetResult.liss_done_eq (rh : bqDecommitmentHandler) :
    Liss.GetResult { state := State.StateDone, handler := LissHandler.bqDecommitment rh } =
      (Liss.GetResult.groups rh 0 rh.configs).bind (fun users =>
        .ok (some { Users := users, PublicKey := rh.publicKey }, none)) := by
  simp [Liss.GetResult, Liss.GetState, Liss.GetHandler, bind]

theorem Liss.GetResult.liss_notReady (m : Liss)
    (h : m.state ≠ State.StateDone ∨ ∀ rh, m.handler ≠ LissHandler.bqDecommitment rh) :
    Liss.GetResult m = .ok (none, some GoError.lissErrNotReady) := by
  obtain ⟨st, hd⟩ := m
  by_cases hst : st = State.StateDone
  · rcases h with h | h
    · exact absurd hst h
    · cases hd with
      | bqDecommitment rh => exact absurd rfl (h rh)
      | other tag => simp [Liss.GetResult, Liss.GetState, Liss.GetHandler, hst]
  · simp [Liss.GetResult, Liss.GetState, hst]

theorem Liss.GetResult.done_returns (rh : bqDecommitmentHandler)
    (v : Option LissResult × Option GoError)
    (h : Liss.GetResult { state := State.StateDone, handler := LissHandler.bqDecommitment rh }
      = .ok v) :
    ∃ r, v = (some r, none) := by
  rw [Liss.GetResult.liss_done_eq] at h
  cases hg : Liss.GetResult.groups rh 0 rh.configs with
  | error e => simp [hg, Except.bind] at h
  | ok users =>
    simp only [hg, Except.bind, Except.ok.injEq] at h
    exact ⟨_, h.symm⟩

theorem Signer.GetResult.signer_notReady (hp : Heap) (s : Signer)
    (h : s.state ≠ State.StateDone ∨ ∀ rh, s.handler ≠ SignerHandler.si rh) :
    Signer.GetResult hp s = .ok (hp, none, some GoError.tssErrNotReady) := by
  obtain ⟨ph, st, hd⟩ := s
  by_cases hst : st = State.StateDone
  · rcases h with h | h
    · exact absurd hst h
    · cases hd with
      | si rh => exact absurd rfl (h rh)
      | pubkey p => simp [Signer.GetResult, Signer.GetState, Signer.GetHandler, hst]
      | other tag => simp [Signer.GetResult, Signer.GetState, Signer.GetHandler, hst]
  · simp [Signer.GetResult, Signer.GetState, hst]

theorem Signer.GetResult.signer_done_eq (hp : Heap) (ph : Option Nat) (rh : siHandler) :
    Signer.GetResult hp { ph := ph, state := State.StateDone, handler := SignerHandler.si rh } =
      (hp.newSet rh.r.GetX).bind (fun r1 =>
        (r1.1.newSet rh.s).bind (fun r2 =>
          .ok (r2.1, some { R := some r1.2, S := some r2.2 }, none))) := by
  simp only [Signer.GetResult, Signer.GetState, Signer.GetHandler, ne_eq, not_true_eq_false,
    if_false, bind]

theorem Heap.newSet_ok (hp : Heap) (a : Nat) (h : a < hp.cells.length) :
    hp.newSet (some a) = .ok ({ cells := hp.cells ++ [hp.read a] }, hp.cells.length) := by
  simp [Heap.newSet, h]

theorem Heap.newSet_nil (hp : Heap) :
    hp.newSet none = .error GoPanic.nilPointerDereference := rfl

theorem Heap.read_append_old (cells extra : List Int) (b : Nat) (h : b < cells.length) :
    Heap.read { cells := cells ++ extra } b = Heap.read { cells := cells } b := by
  simp [Heap.read, List.getD, List.getElem?_append_left h]

/-- With `rh.r.GetX()` and `rh.s` pointing to big integers of the heap, a Done Signer
returns two fresh big integers holding their values. -/
theorem Signer.GetResult.signer_done_ok (hp : Heap) (ph : Option Nat) (rh : siHandler)
    (a b : Nat) (hx : rh.r.GetX = some a) (hs : rh.s = some b)
    (ha : a < hp.cells.length) (hb : b < hp.cells.length) :
    Signer.GetResult hp { ph := ph, state := State.StateDone, handler := SignerHandler.si rh } =
      .ok ({ cells := hp.cells ++ [hp.read a] ++ [hp.read b] },
        some { R := some hp.cells.length, S := some (hp.cells.length + 1) }, none) := by
  have hb' : b < (hp.cells ++ [hp.read a]).length := by simp; omega
  rw [Signer.GetResult.signer_done_eq, hx, hs, Heap.newSet_ok hp a ha]
  simp only [Except.bind]
  rw [Heap.newSet_ok _ b hb']
  simp only [Except.bind, List.length_append, List.length_singleton]
  rw [Heap.read_append_old hp.cells [hp.read a] b hb]

theorem Signer.GetResult.signer_done_returns (hp : Heap) (ph : Option Nat) (rh : siHandler)
    (v : Heap × Option SignerResult × Option GoError)
    (h : Signer.GetResult hp
      { ph := ph, state := State.StateDone, handler := SignerHandler.si rh } = .ok v) :
    ∃ hp' r, v = (hp', some r, none) := by
  rw [Signer.GetResult.signer_done_eq] at h
  cases h1 : hp.newSet rh.r.GetX with
  | error e => simp [h1, Except.bind] at h
  | ok r1 =>
    simp only [h1, Except.bind] at h
    cases h2 : r1.1.newSet rh.s with
    | error e => simp [h2] at h
    | ok r2 =>
      simp only [h2, Except.ok.injEq] at h
      exact ⟨_, _, h.symm⟩

theorem Signer.GetResult.signer_done_nil (hp : Heap) (ph : Option Nat) (rh : siHandler)
    (h : rh.r.GetX = none ∨ rh.s = none) :
    Signer.GetResult hp { ph := ph, state := State.StateDone, handler := SignerHandler.si rh } =
      .error GoPanic.nilPointerDereference := by
  rw [Signer.GetResult.signer_done_eq]
  cases hx : rh.r.GetX with
  | none => rfl
  | some a =>
    have hs : rh.s = none := by
      rcases h with h | h
      · rw [hx] at h; cases h
      · exact h
    by_cases ha : a < hp.cells.length
    · rw [Heap.newSet_ok hp a ha, hs]
      rfl
    · simp [Heap.newSet, ha, Except.bind]

theorem NewSigner.state_init (ext : Externals) (peerManager : PeerManager)
    (expectedPubkey : ECPoint) (homo : Nat) (secret : Int) (selfBk : BkParameter)
    (bks : List BkParameter) (msg : List Nat) (s : Signer) (e : Option GoError)
    (t : List Effect)
    (h : NewSigner ext peerManager expectedPubkey homo secret selfBk bks msg
      = .ok ((some s, e), t)) :
    s.state = State.StateInit := by
  unfold NewSigner at h
  simp only [bind, Except.bind] at h
  split at h
  · simp at h
  · split at h
    · simp at h
    · split at h
      · simp at h
      · split at h
        · simp at h
        · split at h
          · simp at h
          · simp only [NewMsgMain, Except.ok.injEq, Prod.mk.injEq, Option.some.injEq] at h
            rw [← h.1.1]

/-! ## Claim C1: `GetResult` and readiness -/

/-- Claim C1 (counterexample). The state is Done and the handler is the expected variant,
yet no result is returned. For Liss the handler has one group of one user but an empty
`shares` slice, and `GetResult` panics at `rh.shares[0]`. For Signer the handler's `s` is
nil, and `GetResult` panics in `new(big.Int).Set(rh.s)`. -/
theorem C1_counterexample :
    Liss.GetResult ⟨State.StateDone, LissHandler.bqDecommitment sampleNoShares⟩
        = .error GoPanic.indexOutOfRange ∧
    (¬ ∃ r, Liss.GetResult ⟨State.StateDone, LissHandler.bqDecommitment sampleNoShares⟩
        = .ok (some r, none)) ∧
    Signer.GetResult sampleHeap ⟨none, State.StateDone, SignerHandler.si sampleSiNilS⟩
        = .error GoPanic.nilPointerDereference ∧
    ¬ ∃ hp r, Signer.GetResult sampleHeap
        ⟨none, State.StateDone, SignerHandler.si sampleSiNilS⟩ = .ok (hp, some r, none) := by
  have h : Liss.GetResult ⟨State.StateDone, LissHandler.bqDecommitment sampleNoShares⟩
        = .error GoPanic.indexOutOfRange := by decide
  have h' : Signer.GetResult sampleHeap ⟨none, State.StateDone, SignerHandler.si sampleSiNilS⟩
        = .error GoPanic.nilPointerDereference := by decide
  refine ⟨h, ?_, h', ?_⟩
  · rintro ⟨r, hr⟩
    rw [h] at hr
    cases hr
  · rintro ⟨hp, r, hr⟩
    rw [h'] at hr
    cases hr

/-- Claim C1 (amended). For both façades `GetResult` returns a nil result with the NotReady
error whenever the state is not Done (so also in state Init, and for a Signer just built
by `NewSigner`) or the handler is not the expected terminal variant. When the state is
Done and the handler is the expected variant, neither façade ever returns an error or a
nil result. `Liss.GetResult` returns a non-nil result with a nil error when every
`configs[i].Users` is non-negative and `shares[i]` and `shareCommitments[i]` have at least
`configs[i].Users` entries. `Signer.GetResult` returns a non-nil result with a nil error
when `rh.r.GetX()` and `rh.s` point to big integers; when one of them is nil it panics. -/
theorem C1_getResult_ready_iff :
    (∀ m : Liss, (m.state ≠ State.StateDone ∨ ∀ rh, m.handler ≠ LissHandler.bqDecommitment rh) →
      Liss.GetResult m = .ok (none, some GoError.lissErrNotReady)) ∧
    (∀ rh : bqDecommitmentHandler, rh.SharesCover → rh.CommitmentsCover →
      ∃ r, Liss.GetResult { state := State.StateDone, handler := LissHandler.bqDecommitment rh }
        = .ok (some r, none)) ∧
    (∀ (rh : bqDecommitmentHandler) (v : Option LissResult × Option GoError),
      Liss.GetResult { state := State.StateDone, handler := LissHandler.bqDecommitment rh }
        = .ok v → ∃ r, v = (some r, none)) ∧
    (∀ (hp : Heap) (s : Signer),
      (s.state ≠ State.StateDone ∨ ∀ rh, s.handler ≠ SignerHandler.si rh) →
      Signer.GetResult hp s = .ok (hp, none, some GoError.tssErrNotReady)) ∧
    (∀ (hp : Heap) (ph : Option Nat) (rh : siHandler) (a b : Nat),
      rh.r.GetX = some a → rh.s = some b → a < hp.cells.length → b < hp.cells.length →
      ∃ hp' r, Signer.GetResult hp ⟨ph, State.StateDone, SignerHandler.si rh⟩
        = .ok (hp', some r, none)) ∧
    (∀ (hp : Heap) (ph : Option Nat) (rh : siHandler)
      (v : Heap × Option SignerResult × Option GoError),
      Signer.GetResult hp ⟨ph, State.StateDone, SignerHandler.si rh⟩ = .ok v →
      ∃ hp' r, v = (hp', some r, none)) ∧
    (∀ (hp : Heap) (ph : Option Nat) (rh : siHandler),
      (rh.r.GetX = none ∨ rh.s = none) →
      Signer.GetResult hp ⟨ph, State.StateDone, SignerHandler.si rh⟩
        = .error GoPanic.nilPointerDereference) ∧
    (∀ (ext : Externals) (peerManager : PeerManager) (expectedPubkey : ECPoint) (homo : Nat)
      (secret : Int) (selfBk : BkParameter) (bks : List BkParameter) (msg : List Nat)
      (s : Signer) (e : Option GoError) (t : List Effect) (hp : Heap),
      NewSigner ext peerManager expectedPubkey homo secret selfBk bks msg = .ok ((some s, e), t) →
      Signer.GetResult hp s = .ok (hp, none, some GoError.tssErrNotReady)) := by
  refine ⟨Liss.GetResult.liss_notReady, ?_, Liss.GetResult.done_returns,
    Signer.GetResult.signer_notReady, ?_, Signer.GetResult.signer_done_returns,
    Signer.GetResult.signer_done_nil, ?_⟩
  · intro rh hs hc
    rw [Liss.GetResult.liss_done_eq, Liss.GetResult.groups_covered rh hs hc]
    exact ⟨_, rfl⟩
  · intro hp ph rh a b hx hs ha hb
    exact ⟨_, _, Signer.GetResult.signer_done_ok hp ph rh a b hx hs ha hb⟩
  · intro ext pm pk homo secret selfBk bks msg s e t hp h
    apply Signer.GetResult.signer_notReady
    left
    rw [NewSigner.state_init ext pm pk homo secret selfBk bks msg s e t h]
    decide

/-- Claim C1 (witness). The amended statement at concrete inputs: a Liss in state Init is
not ready; a Done Liss whose handler has one group of two users with matching shares and
commitments returns a result; a Done Signer whose handler points to the big integers at
addresses 0 and 1 returns a result. -/
theorem C1_getResult_ready_iff_witness :
    Liss.GetResult ⟨State.StateInit, LissHandler.other 0⟩
      = .ok (none, some GoError.lissErrNotReady) ∧
    sampleDecommitment.SharesCover ∧ sampleDecommitment.CommitmentsCover ∧
    (∃ r, Liss.GetResult ⟨State.StateDone, LissHandler.bqDecommitment sampleDecommitment⟩
        = .ok (some r, none)) ∧
    ∃ hp r, Signer.GetResult sampleHeap ⟨none, State.StateDone, SignerHandler.si sampleSi⟩
        = .ok (hp, some r, none) :=
  ⟨C1_getResult_ready_iff.1 _ (Or.inl (by decide)), by decide, by decide,
    C1_getResult_ready_iff.2.1 _ (by decide) (by decide),
    C1_getResult_ready_iff.2.2.2.2.1 sampleHeap none sampleSi 0 1 rfl rfl (by decide)
      (by decide)⟩

/-! ## Claim C8: `Liss.GetResult` projects the terminal handler -/

/-- Claim C8 (counterexample). One group of one user, `shares[0]` has one entry holding a
share under key `k`, so the stated precondition holds, but `shareCommitments` is empty:
`Liss.GetResult` indexes `rh.shareCommitments[0]` out of range. -/
theorem C8_counterexample :
    sampleNoCommitments.SharesCover ∧
    Liss.GetResult ⟨State.StateDone, LissHandler.bqDecommitment sampleNoCommitments⟩
      = .error GoPanic.indexOutOfRange := by
  decide

/-- Claim C8 (amended). For a Done state whose handler is a `bqDecommitmentHandler` such
that, for every group `i`, `configs[i].Users` is non-negative and both `shares[i]` and
`shareCommitments[i]` have at least `configs[i].Users` entries, `Liss.GetResult` returns
without panic a non-nil result with a nil error; its `PublicKey` is the handler's
`publicKey`, `Users` has `len(configs)` groups, `Users[i]` has `configs[i].Users` entries,
and each map `Users[i][j]` has pairwise distinct keys, exactly the keys of `shares[i][j]`,
with `Share = shares[i][j][k]` and `Bq = shareCommitments[i][j][k]` under every key `k`.
Every call on that state returns this same result. -/
theorem C8_getResult_projects (rh : bqDecommitmentHandler)
    (hs : rh.SharesCover) (hc : rh.CommitmentsCover) :
    ∃ users : List (List (GoMap UserResult)),
      Liss.GetResult ⟨State.StateDone, LissHandler.bqDecommitment rh⟩
        = .ok (some { PublicKey := rh.publicKey, Users := users }, none) ∧
      (∀ v, Liss.GetResult ⟨State.StateDone, LissHandler.bqDecommitment rh⟩ = .ok v →
        v = (some { PublicKey := rh.publicKey, Users := users }, none)) ∧
      users.length = rh.configs.length ∧
      ∀ i, i < rh.configs.length →
        ((users.getD i []).length : Int) = (rh.config i).Users ∧
        ∀ j : Nat, (j : Int) < (rh.config i).Users →
          GoMap.WF ((users.getD i []).getD j []) ∧
          (∀ k, k ∈ GoMap.keys ((users.getD i []).getD j []) ↔ k ∈ GoMap.keys (rh.share i j)) ∧
          ∀ k, k ∈ GoMap.keys (rh.share i j) →
            GoMap.find? ((users.getD i []).getD j []) k =
              some { Share := GoMap.index none (rh.share i j) k,
                     Bq := GoMap.index none (rh.shareCommitment i j) k } := by
  have hg := Liss.GetResult.groups_covered rh hs hc
  have hr : Liss.GetResult ⟨State.StateDone, LissHandler.bqDecommitment rh⟩
      = .ok (some { PublicKey := rh.publicKey,
                    Users := (List.range rh.configs.length).map (fun i =>
                      (List.range (rh.config i).Users.toNat).map (fun j =>
                        (rh.share i j).foldl
                          (fun a e => GoMap.set a e.1 (rh.userResult i j e.1)) [])) }, none) := by
    rw [Liss.GetResult.liss_done_eq, hg]; rfl
  refine ⟨_, hr, ?_, by simp, ?_⟩
  · intro v hv
    rw [hr] at hv
    cases hv
    rfl
  · intro i hi
    have h0 := (hc i hi).1
    have hrow : ((List.range rh.configs.length).map (fun i =>
          (List.range (rh.config i).Users.toNat).map (fun j =>
            (rh.share i j).foldl (fun a e => GoMap.set a e.1 (rh.userResult i j e.1)) []))).getD
          i [] =
        (List.range (rh.config i).Users.toNat).map (fun j =>
            (rh.share i j).foldl (fun a e => GoMap.set a e.1 (rh.userResult i j e.1)) []) := by
      simp [List.getD, List.getElem?_map, List.getElem?_range hi]
    rw [hrow]
    refine ⟨by simp [Int.toNat_of_nonneg h0], ?_⟩
    intro j hj
    have hj' : j < (rh.config i).Users.toNat := by
      have := Int.toNat_of_nonneg h0
      omega
    have hcell : ((List.range (rh.config i).Users.toNat).map (fun j =>
            (rh.share i j).foldl (fun a e => GoMap.set a e.1 (rh.userResult i j e.1)) [])).getD
          j [] =
        (rh.share i j).foldl (fun a e => GoMap.set a e.1 (rh.userResult i j e.1)) [] := by
      simp [List.getD, List.getElem?_map, List.getElem?_range hj']
    rw [hcell]
    refine ⟨?_, ?_, ?_⟩
    · apply GoMap.WF_foldl_set (rh.userResult i j)
      simp [GoMap.WF, GoMap.keys]
    · intro k
      rw [GoMap.mem_keys_foldl_set (rh.userResult i j)]
      simp [GoMap.keys]
    · intro k hk
      rw [GoMap.find_foldl_set (rh.userResult i j)]
      have hk' : k ∈ List.map Prod.fst (rh.share i j) := hk
      rw [if_pos hk']
      rfl

/-- Claim C8 (witness). The amended statement at a handler with one group of two users. -/
theorem C8_getResult_projects_witness :
    sampleDecommitment.SharesCover ∧ sampleDecommitment.CommitmentsCover ∧
    ∃ users : List (List (GoMap UserResult)),
      Liss.GetResult ⟨State.StateDone, LissHandler.bqDecommitment sampleDecommitment⟩
        = .ok (some { PublicKey := sampleDecommitment.publicKey, Users := users }, none) ∧
      users.length = sampleDecommitment.configs.length :=
  ⟨by decide, by decide,
    (C8_getResult_projects sampleDecommitment (by decide) (by decide)).imp
      (fun _ h => ⟨h.1, h.2.2.1⟩)⟩

/-! ## Claim C7: independence of the returned result -/

theorem Heap.read_write_of_ne (hp : Heap) (a b : Nat) (v : Int) (h : a ≠ b) :
    (hp.write a v).read b = hp.read b := by
  simp [Heap.write, Heap.read, List.getD, List.getElem?_set, h]

/-- The result of `Signer.GetResult` is a pair of fresh big integers holding the values of
`rh.r.GetX()` and `rh.s`; mutating any big integer that existed before the call leaves
both values unchanged. -/
theorem Signer.GetResult.independent (hp : Heap) (ph : Option Nat) (rh : siHandler)
    (a b : Nat) (hx : rh.r.GetX = some a) (hs : rh.s = some b)
    (ha : a < hp.cells.length) (hb : b < hp.cells.length) :
    ∃ hp' R S, Signer.GetResult hp ⟨ph, State.StateDone, SignerHandler.si rh⟩
        = .ok (hp', some { R := some R, S := some S }, none) ∧
      hp'.read R = hp.read a ∧ hp'.read S = hp.read b ∧
      ∀ c v, c < hp.cells.length →
        (hp'.write c v).read R = hp.read a ∧ (hp'.write c v).read S = hp.read b := by
  have hR : Heap.read { cells := hp.cells ++ [hp.read a] ++ [hp.read b] } hp.cells.length
      = hp.read a := by
    simp only [Heap.read, List.getD, List.append_assoc, List.singleton_append,
      List.get?_eq_getElem?]
    rw [List.getElem?_append_right (Nat.le_refl _)]
    simp
  have hS : Heap.read { cells := hp.cells ++ [hp.read a] ++ [hp.read b] }
      (hp.cells.length + 1) = hp.read b := by
    simp only [Heap.read, List.getD, List.append_assoc, List.singleton_append,
      List.get?_eq_getElem?]
    rw [List.getElem?_append_right (Nat.le_add_right _ _)]
    simp
  refine ⟨_, _, _, Signer.GetResult.signer_done_ok hp ph rh a b hx hs ha hb, hR, hS, ?_⟩
  intro c v hc
  rw [Heap.read_write_of_ne _ _ _ _ (by omega), Heap.read_write_of_ne _ _ _ _ (by omega)]
  exact ⟨hR, hS⟩

/-- Claim C7 (failing input). `Liss.GetResult` on a Done state returns a result whose
`Share` under group 0, user 0, key `k` is the very pointer held in `rh.shares[0][0]["k"]`
(address 0). Through that pointer the result reads 5 on the sample heap; after the
in-place mutation of the handler's big integer to 99 the previously returned result reads
99: the result is not an independent copy. -/
theorem C7_liss_result_shares_pointers :
    ∃ r, Liss.GetResult ⟨State.StateDone, LissHandler.bqDecommitment sampleDecommitment⟩
        = .ok (some r, none) ∧
      r.shareOf = GoMap.index none (sampleDecommitment.share 0 0) "k" ∧
      r.PublicKey = sampleDecommitment.publicKey ∧
      sampleHeap.deref r.shareOf = some 5 ∧
      (sampleHeap.write 0 99).deref r.shareOf = some 99 := by
  refine ⟨⟨some 2, [[[("k", ⟨some 3, some 0⟩)], [("l", ⟨some 4, some 1⟩)]]]⟩, ?_, ?_, ?_, ?_, ?_⟩ <;>
    decide

/-! ## Claims C5 and C10: `NewSigner` -/

theorem NewSigner.of_count_ne (ext : Externals) (peerManager : PeerManager)
    (expectedPubkey : ECPoint) (homo : Nat) (secret : Int) (selfBk : BkParameter)
    (bks : List BkParameter) (msg : List Nat) (h : bks.length ≠ peerManager.NumPeers) :
    NewSigner ext peerManager expectedPubkey homo secret selfBk bks msg
      = .ok ((none, some GoError.tssErrInconsistentPeerNumAndBks), []) := by
  simp [NewSigner, h]

/-- What `NewSigner` does once the peer-count check has passed and the coefficient
computation has returned `c` at index 0 without error, for a non-zero curve order. -/
theorem NewSigner.of_coefficient (ext : Externals) (peerManager : PeerManager)
    (expectedPubkey : ECPoint) (homo : Nat) (secret : Int) (selfBk : BkParameter)
    (bks : List BkParameter) (msg : List Nat) (scalars : List Int) (c : Int)
    (h : bks.length = peerManager.NumPeers)
    (hc : ext.ComputeBkCoefficient (selfBk :: bks) (uint32Add peerManager.NumPeers 1)
      expectedPubkey.GetCurve.N = (scalars, none))
    (h0 : scalars[0]? = some c) (hN : expectedPubkey.GetCurve.N ≠ 0) :
    NewSigner ext peerManager expectedPubkey homo secret selfBk bks msg =
      .ok (match (ext.newPubkeyHandler expectedPubkey peerManager homo
            (secret * c % expectedPubkey.GetCurve.N) msg) with
        | (_, some e) => ((none, some e),
            [Effect.ComputeBkCoefficient (selfBk :: bks) (uint32Add peerManager.NumPeers 1)
              expectedPubkey.GetCurve.N,
             Effect.newPubkeyHandler (secret * c % expectedPubkey.GetCurve.N)])
        | (ph, none) => ((some { ph := ph, state := State.StateInit,
                                 handler := SignerHandler.pubkey ph }, none),
            [Effect.ComputeBkCoefficient (selfBk :: bks) (uint32Add peerManager.NumPeers 1)
              expectedPubkey.GetCurve.N,
             Effect.newPubkeyHandler (secret * c % expectedPubkey.GetCurve.N),
             Effect.NewMsgMain peerManager.SelfID peerManager.NumPeers])) := by
  have hs : sliceAt scalars 0 = .ok c := sliceAt_eq_ok _ _ _ h0
  simp only [NewSigner, h, ne_eq, not_true_eq_false, if_false, List.singleton_append, hc, hs,
    bigMod, hN, bind, Except.bind, NewMsgMain]
  rcases hp : ext.newPubkeyHandler expectedPubkey peerManager homo
      (secret * c % expectedPubkey.GetCurve.N) msg with ⟨ph, _ | e⟩ <;> simp [hp]

/-- Claim C5. `NewSigner` checks the peer count first. When `len(bks)` differs from
`NumPeers()` it returns `(nil, ErrInconsistentPeerNumAndBks)` and has made no call at all:
no Birkhoff coefficient computed, no handler and no engine constructed. When `len(bks)`
equals `NumPeers()` the check lets the call through: whenever `NewSigner` returns, its
first call was the coefficient computation on `selfBk` followed by `bks`, and an error it
returns is the one returned by `ComputeBkCoefficient` or by `newPubkeyHandler`, never one
produced by the check. -/
theorem C5_newSigner_peer_count (ext : Externals) (peerManager : PeerManager)
    (expectedPubkey : ECPoint) (homo : Nat) (secret : Int) (selfBk : BkParameter)
    (bks : List BkParameter) (msg : List Nat) :
    (bks.length ≠ peerManager.NumPeers →
      NewSigner ext peerManager expectedPubkey homo secret selfBk bks msg
        = .ok ((none, some GoError.tssErrInconsistentPeerNumAndBks), [])) ∧
    (bks.length = peerManager.NumPeers →
      ∀ res, NewSigner ext peerManager expectedPubkey homo secret selfBk bks msg = .ok res →
        res.2.head? = some (Effect.ComputeBkCoefficient (selfBk :: bks)
          (uint32Add peerManager.NumPeers 1) expectedPubkey.GetCurve.N) ∧
        ∀ e, res.1.2 = some e →
          (ext.ComputeBkCoefficient (selfBk :: bks) (uint32Add peerManager.NumPeers 1)
            expectedPubkey.GetCurve.N).2 = some e ∨
          ∃ wi, (ext.newPubkeyHandler expectedPubkey peerManager homo wi msg).2 = some e) := by
  refine ⟨NewSigner.of_count_ne ext peerManager expectedPubkey homo secret selfBk bks msg, ?_⟩
  intro h res hres
  unfold NewSigner at hres
  simp only [h, ne_eq, not_true_eq_false, if_false, List.singleton_append, bind, Except.bind]
    at hres
  split at hres
  · cases hres
    rename_i e he
    exact ⟨rfl, fun e' he' => Or.inl (by simpa [he] using he')⟩
  · split at hres
    · cases hres
    · split at hres
      · cases hres
      · split at hres
        · cases hres
          rename_i wi _ _ e he
          exact ⟨rfl, fun e' he' => Or.inr ⟨wi, by simpa [he] using he'⟩⟩
        · cases hres
          exact ⟨rfl, fun e' he' => by simp at he'⟩

/-- Claim C5 (witness). One Birkhoff parameter for two peers is rejected by the check;
one parameter for one peer passes it. -/
theorem C5_newSigner_peer_count_witness :
    NewSigner sampleExternals ⟨"id-0", 2⟩ samplePubkey 0 5 ⟨1, 0⟩ [⟨2, 0⟩] []
      = .ok ((none, some GoError.tssErrInconsistentPeerNumAndBks), []) ∧
    ∀ res, NewSigner sampleExternals ⟨"id-0", 1⟩ samplePubkey 0 5 ⟨1, 0⟩ [⟨2, 0⟩] [] = .ok res →
      res.2.head? = some (Effect.ComputeBkCoefficient [⟨1, 0⟩, ⟨2, 0⟩] 2 11) :=
  ⟨(C5_newSigner_peer_count sampleExternals ⟨"id-0", 2⟩ samplePubkey 0 5 ⟨1, 0⟩ [⟨2, 0⟩] []).1
      (by decide),
    fun res h =>
      ((C5_newSigner_peer_count sampleExternals ⟨"id-0", 1⟩ samplePubkey 0 5 ⟨1, 0⟩ [⟨2, 0⟩]
        []).2 (by decide) res h).1⟩

/-- Claim C10. In `NewSigner`, for every integer `secret`, whenever the peer-count check
passes and the coefficient computation on `selfBk` followed by `bks` (threshold
`NumPeers()+1` in `uint32`, modulus the curve order `N > 0`) succeeds with `c` at index 0,
the call returns, `newPubkeyHandler` is called exactly once and the share handed to it is
`(secret * c) mod N`, which lies in `[0, N)`; the returned pair is what
`newPubkeyHandler` yields on that share. -/
theorem C10_newSigner_weighted_share (ext : Externals) (peerManager : PeerManager)
    (expectedPubkey : ECPoint) (homo : Nat) (secret : Int) (selfBk : BkParameter)
    (bks : List BkParameter) (msg : List Nat) (scalars : List Int) (c : Int)
    (h : bks.length = peerManager.NumPeers)
    (hc : ext.ComputeBkCoefficient (selfBk :: bks) (uint32Add peerManager.NumPeers 1)
      expectedPubkey.GetCurve.N = (scalars, none))
    (h0 : scalars[0]? = some c) (hN : 0 < expectedPubkey.GetCurve.N) :
    ∃ wi res t,
      NewSigner ext peerManager expectedPubkey homo secret selfBk bks msg
        = .ok (res, Effect.ComputeBkCoefficient (selfBk :: bks)
            (uint32Add peerManager.NumPeers 1) expectedPubkey.GetCurve.N
          :: Effect.newPubkeyHandler wi :: t) ∧
      (∀ w, Effect.newPubkeyHandler w ∉ t) ∧
      wi = (secret * c) % expectedPubkey.GetCurve.N ∧
      0 ≤ wi ∧ wi < expectedPubkey.GetCurve.N ∧
      res = (match ext.newPubkeyHandler expectedPubkey peerManager homo wi msg with
        | (_, some e) => (none, some e)
        | (ph, none) => (some { ph := ph, state := State.StateInit,
                                handler := SignerHandler.pubkey ph }, none)) ∧
      (peerManager.NumPeers + 1 < 4294967296 →
        uint32Add peerManager.NumPeers 1 = peerManager.NumPeers + 1) := by
  have hne : expectedPubkey.GetCurve.N ≠ 0 := ne_of_gt hN
  have heq := NewSigner.of_coefficient ext peerManager expectedPubkey homo secret selfBk bks
    msg scalars c h hc h0 hne
  have hlo : 0 ≤ secret * c % expectedPubkey.GetCurve.N := Int.emod_nonneg _ hne
  have hhi : secret * c % expectedPubkey.GetCurve.N < expectedPubkey.GetCurve.N :=
    Int.emod_lt_of_pos _ hN
  have hu : peerManager.NumPeers + 1 < 4294967296 →
      uint32Add peerManager.NumPeers 1 = peerManager.NumPeers + 1 := by
    intro hlt
    simp [uint32Add, Nat.mod_eq_of_lt hlt]
  rcases hp : ext.newPubkeyHandler expectedPubkey peerManager homo
      (secret * c % expectedPubkey.GetCurve.N) msg with ⟨ph, _ | e⟩
  · refine ⟨_, (some ⟨ph, State.StateInit, SignerHandler.pubkey ph⟩, none),
      [Effect.NewMsgMain peerManager.SelfID peerManager.NumPeers], ?_, ?_, rfl,
      hlo, hhi, ?_, hu⟩
    · rw [heq, hp]
    · simp
    · rw [hp]
  · refine ⟨_, (none, some e), [], ?_, ?_, rfl, hlo, hhi, ?_, hu⟩
    · rw [heq, hp]
    · simp
    · rw [hp]

/-- Claim C10 (witness). Secret `-7`, curve order 11, coefficient 3 for `selfBk`: the
share handed on is `(-21) mod 11 = 1`. -/
theorem C10_newSigner_weighted_share_witness :
    ∃ wi res t,
      NewSigner sampleExternals ⟨"id-0", 1⟩ samplePubkey 0 (-7) ⟨3, 0⟩ [⟨2, 0⟩] []
        = .ok (res, Effect.ComputeBkCoefficient [⟨3, 0⟩, ⟨2, 0⟩] 2 11
          :: Effect.newPubkeyHandler wi :: t) ∧ wi = 1 :=
  (C10_newSigner_weighted_share sampleExternals ⟨"id-0", 1⟩ samplePubkey 0 (-7) ⟨3, 0⟩
    [⟨2, 0⟩] [] [3, 2] 3 (by decide) (by decide) (by decide) (by decide)).imp
    (fun _ h => h.imp (fun _ h => h.imp (fun _ h => ⟨h.1, by rw [h.2.2.1]; decide⟩)))

/-! ## Claims C4 and C6: `newUserHandler0` and `GetRequiredMessageCount` -/

theorem buildPeers.of_no_self (ext : Externals) (selfId : String) (fieldOrder : Int)
    (bks : GoMap BkParameter) (h : GoMap.find? bks selfId = none) :
    buildPeers ext selfId fieldOrder bks = .ok (([], some GoError.ErrNoSelfBk), []) := by
  simp [buildPeers, h]

/-- Claim C4. `newUserHandler0` creates no handler for an invalid configuration: with an
identity public key it returns `(nil, ErrIndentityPublicKey)`; with a non-identity public
key and a `bks` map without an entry for the peer manager's self id it returns
`(nil, ErrNoSelfBk)`. In both cases it has made no call: no peer built, no coefficient
computed, no message sent. -/
theorem C4_newUserHandler0_invalid (ext : Externals) (publicKey : ECPoint)
    (peerManager : PeerManager) (bks : GoMap BkParameter) (password : List Nat) :
    (publicKey.IsIdentity = true →
      newUserHandler0 ext publicKey peerManager bks password
        = .ok ((none, some GoError.ErrIndentityPublicKey), [])) ∧
    (publicKey.IsIdentity = false → GoMap.find? bks peerManager.SelfID = none →
      newUserHandler0 ext publicKey peerManager bks password
        = .ok ((none, some GoError.ErrNoSelfBk), [])) := by
  constructor
  · intro h
    simp [newUserHandler0, h]
  · intro h hs
    simp [newUserHandler0, h, buildPeers.of_no_self ext _ _ bks hs, bind, Except.bind]

/-- Claim C4 (witness). An identity public key, and a `bks` map lacking the self id
`id-9`, are both rejected without any call. -/
theorem C4_newUserHandler0_invalid_witness :
    newUserHandler0 sampleExternals ⟨⟨11⟩, true, none⟩ samplePeerManager sampleBks2 []
        = .ok ((none, some GoError.ErrIndentityPublicKey), []) ∧
    newUserHandler0 sampleExternals samplePubkey ⟨"id-9", 1⟩ sampleBks2 []
        = .ok ((none, some GoError.ErrNoSelfBk), []) :=
  ⟨(C4_newUserHandler0_invalid sampleExternals ⟨⟨11⟩, true, none⟩ samplePeerManager sampleBks2
      []).1 (by decide),
   (C4_newUserHandler0_invalid sampleExternals samplePubkey ⟨"id-9", 1⟩ sampleBks2 []).2
      (by decide) (by decide)⟩

theorem newUserHandler0.bks_eq (ext : Externals) (publicKey : ECPoint)
    (peerManager : PeerManager) (bks : GoMap BkParameter) (password : List Nat)
    (h : userHandler0) (e : Option GoError) (t : List Effect)
    (hr : newUserHandler0 ext publicKey peerManager bks password = .ok ((some h, e), t)) :
    h.bks = bks := by
  unfold newUserHandler0 at hr
  simp only [bind, Except.bind] at hr
  split at hr
  · cases hr
  · split at hr
    · cases hr
    · split at hr
      · cases hr
      · split at hr
        · cases hr
        · cases hr
          rfl

/-- Claim C6 (counterexample). From a `bks` map of three parties (with the stand-in
library calls, threshold 2) `newUserHandler0` constructs a handler whose
`GetRequiredMessageCount()` is 1, while the number of other parties is 2 and the
threshold is 2. -/
theorem C6_counterexample :
    ∃ h t, newUserHandler0 sampleExternals samplePubkey samplePeerManager sampleBks3 []
        = .ok ((some h, none), t) ∧
      h.GetRequiredMessageCount = 1 ∧ sampleBks3.length - 1 = 2 ∧
      h.peers.length - 1 = 2 ∧ sampleExternals.PasswordThreshold = 2 ∧
      h.GetRequiredMessageCount ≠ sampleBks3.length - 1 ∧
      h.GetRequiredMessageCount ≠ sampleExternals.PasswordThreshold := by
  refine ⟨_, _, (by rfl : newUserHandler0 sampleExternals samplePubkey samplePeerManager
    sampleBks3 [] = .ok ((some _, none), _)), ?_⟩
  decide

/-- Claim C6 (amended). For every `userHandler0` successfully constructed by
`newUserHandler0` from a `bks` map, `GetRequiredMessageCount()` is the constant 1; it
equals the number of other parties `len(bks) - 1` exactly when `bks` has two entries (the
user and one server). -/
theorem C6_requiredMessageCount (ext : Externals) (publicKey : ECPoint)
    (peerManager : PeerManager) (bks : GoMap BkParameter) (password : List Nat)
    (h : userHandler0) (t : List Effect)
    (hr : newUserHandler0 ext publicKey peerManager bks password = .ok ((some h, none), t)) :
    h.GetRequiredMessageCount = 1 ∧ h.bks = bks ∧
      (h.GetRequiredMessageCount = bks.length - 1 ↔ bks.length = 2) := by
  refine ⟨rfl, newUserHandler0.bks_eq ext publicKey peerManager bks password h none t hr, ?_⟩
  simp only [userHandler0.GetRequiredMessageCount]
  omega

/-- Claim C6 (witness). The amended statement at the two-party map. -/
theorem C6_requiredMessageCount_witness :
    ∃ h t, newUserHandler0 sampleExternals samplePubkey samplePeerManager sampleBks2 []
        = .ok ((some h, none), t) ∧
      h.GetRequiredMessageCount = 1 ∧
      (h.GetRequiredMessageCount = sampleBks2.length - 1 ↔ sampleBks2.length = 2) := by
  have hr : ∃ h t, newUserHandler0 sampleExternals samplePubkey samplePeerManager sampleBks2 []
      = .ok ((some h, none), t) := ⟨_, _, rfl⟩
  obtain ⟨h, t, hr⟩ := hr
  exact ⟨h, t, hr,
    (C6_requiredMessageCount sampleExternals samplePubkey samplePeerManager sampleBks2 [] h t
      hr).1,
    (C6_requiredMessageCount sampleExternals samplePubkey samplePeerManager sampleBks2 [] h t
      hr).2.2⟩

/-! ## Claim C9: `buildPeers` -/

/-- The coefficient loop started at the end of `pre` rewrites exactly the next
`len(gots)` peers, pairing the peer at each position with the coefficient at the same
position. -/
theorem buildPeers.assign_eq (gots : List Int) :
    ∀ (pre mid post : List peer), mid.length = gots.length →
      buildPeers.assign (pre ++ mid ++ post) pre.length gots =
        .ok (pre ++ List.zipWith (fun p co => { p with bkCoefficient := some co }) mid gots
          ++ post) := by
  induction gots with
  | nil =>
    intro pre mid post h
    have : mid = [] := List.length_eq_zero.mp h
    subst this
    simp [buildPeers.assign]
  | cons co rest ih =>
    intro pre mid post h
    cases mid with
    | nil => simp at h
    | cons m mid' =>
      have hlen : mid'.length = rest.length := by simpa using h
      have hs : sliceAt (pre ++ m :: mid' ++ post) pre.length = .ok m := by
        apply sliceAt_eq_ok
        rw [List.append_assoc, List.getElem?_append_right (Nat.le_refl _)]
        simp
      have hset : (pre ++ m :: mid' ++ post).set pre.length
            { m with bkCoefficient := some co } =
          (pre ++ [{ m with bkCoefficient := some co }]) ++ mid' ++ post := by
        simp [List.append_assoc]
      have hidx : pre.length + 1 = (pre ++ [{ m with bkCoefficient := some co }]).length := by
        simp
      simp only [buildPeers.assign, hs, bind, Except.bind]
      rw [hset, hidx, ih _ mid' post hlen]
      simp [List.append_assoc]

theorem buildPeers.peerMaps_foldl (ps : List peer) :
    ∀ acc : GoMap peer, (GoMap.keys acc ++ ps.map (fun p => p.Id)).Nodup →
      ps.foldl (fun m p => GoMap.set m p.Id p) acc = acc ++ ps.map (fun p => (p.Id, p)) := by
  induction ps with
  | nil => intro acc _; simp
  | cons p rest ih =>
    intro acc h
    have hp : p.Id ∉ GoMap.keys acc := by
      intro hc
      have := List.nodup_append.mp h
      exact this.2.2 hc (by simp)
    simp only [List.foldl_cons, GoMap.set_of_not_mem acc p.Id p hp]
    rw [ih]
    · simp
    · have h' : (GoMap.keys acc ++ p.Id :: rest.map (fun p => p.Id)).Nodup := by
        simpa using h
      have : (GoMap.keys acc ++ [p.Id] ++ rest.map (fun p => p.Id)).Nodup := by
        simpa [List.append_assoc] using h'
      simpa [GoMap.keys] using this

theorem GoMap.find_of_mem {V : Type} (m : GoMap V) (k : String) (v : V) (hwf : GoMap.WF m)
    (h : (k, v) ∈ m) : GoMap.find? m k = some v := by
  induction m with
  | nil => simp at h
  | cons e rest ih =>
    obtain ⟨a, b⟩ := e
    have hw : a ∉ GoMap.keys rest ∧ GoMap.WF rest := by simpa [GoMap.WF, GoMap.keys] using hwf
    rcases List.mem_cons.mp h with h | h
    · cases h
      simp [GoMap.find?]
    · have hne : ¬ a = k := by
        intro e
        subst e
        exact hw.1 (List.mem_map_of_mem Prod.fst h)
      simp [GoMap.find?, hne, ih hw.2 h]

theorem buildPeers.keys_zipWith (order : GoMap BkParameter) :
    ∀ gots : List Int, gots.length = order.length →
      (List.zipWith (fun (e : String × BkParameter) (co : Int) =>
        (e.1, ({ Id := e.1, bk := e.2, bkCoefficient := some co, messages := [] } : peer)))
        order gots).map Prod.fst = order.map Prod.fst := by
  induction order with
  | nil => intro gots _; simp
  | cons e rest ih =>
    intro gots h
    cases gots with
    | nil => simp at h
    | cons co cos =>
      simp only [List.zipWith_cons_cons, List.map_cons]
      rw [ih cos (by simpa using h)]

/-- The value of `buildPeers` when the self id is present and the coefficient computation
returns one coefficient per visited entry. -/
theorem buildPeers.of_coefficients (ext : Externals) (selfId : String) (fieldOrder : Int)
    (order : GoMap BkParameter) (gots : List Int) (hwf : GoMap.WF order)
    (hself : GoMap.find? order selfId ≠ none)
    (hc : ext.ComputeBkCoefficient (order.map (fun e => e.2)) ext.PasswordThreshold fieldOrder
      = (gots, none))
    (hlen : gots.length = order.length) :
    buildPeers ext selfId fieldOrder order =
      .ok ((List.zipWith (fun (e : String × BkParameter) (co : Int) =>
          (e.1, ({ Id := e.1, bk := e.2, bkCoefficient := some co, messages := [] } : peer)))
          order gots, none),
        order.map (fun e => Effect.newPeer e.1 e.2) ++
          [Effect.ComputeBkCoefficient (order.map (fun e => e.2)) ext.PasswordThreshold
            fieldOrder]) := by
  have ha : buildPeers.assign (order.map (fun e => newPeer e.1 e.2)) 0 gots =
      .ok (List.zipWith (fun p co => { p with bkCoefficient := some co })
        (order.map (fun e => newPeer e.1 e.2)) gots) := by
    have := buildPeers.assign_eq gots [] (order.map (fun e => newPeer e.1 e.2)) []
      (by simp [hlen])
    simpa using this
  have hz : List.zipWith (fun (p : peer) (co : Int) => { p with bkCoefficient := some co })
        (order.map (fun e => newPeer e.1 e.2)) gots =
      List.zipWith (fun (e : String × BkParameter) (co : Int) =>
        ({ Id := e.1, bk := e.2, bkCoefficient := some co, messages := [] } : peer))
        order gots := by
    rw [List.zipWith_map_left]
    rfl
  have hm : buildPeers.peerMaps (List.zipWith (fun (e : String × BkParameter) (co : Int) =>
        ({ Id := e.1, bk := e.2, bkCoefficient := some co, messages := [] } : peer))
        order gots) =
      List.zipWith (fun (e : String × BkParameter) (co : Int) =>
        (e.1, ({ Id := e.1, bk := e.2, bkCoefficient := some co, messages := [] } : peer)))
        order gots := by
    unfold buildPeers.peerMaps
    rw [buildPeers.peerMaps_foldl]
    · simp [List.map_zipWith]
    · have hk := buildPeers.keys_zipWith order gots hlen
      have : (List.zipWith (fun (e : String × BkParameter) (co : Int) =>
          ({ Id := e.1, bk := e.2, bkCoefficient := some co, messages := [] } : peer))
          order gots).map (fun p => p.Id) = order.map Prod.fst := by
        rw [← hk, List.map_zipWith, List.map_zipWith]
      simpa [GoMap.keys, this] using hwf
  cases hs : GoMap.find? order selfId with
  | none => exact absurd hs hself
  | some b =>
    simp only [buildPeers, hs, hc, ha, hz, hm, bind, Except.bind]

/-- Claim C9. Let `bks` be a map containing `selfId` and let `order` be any order in which
the `range` loop visits its entries. If `ComputeBkCoefficient` succeeds on the visited
parameters and returns one coefficient per parameter, then `buildPeers` returns a peer
map with pairwise distinct keys, exactly the keys of `bks` (same size, self included);
the peer under `id` has identifier `id`, parameter `bks[id]`, no message, and as
`bkCoefficient` the coefficient returned at the position at which `bks[id]` was passed.
This holds for every visiting order. -/
theorem C9_buildPeers_aligned (ext : Externals) (selfId : String) (fieldOrder : Int)
    (bks order : GoMap BkParameter) (gots : List Int)
    (hwf : GoMap.WF bks) (hperm : List.Perm order bks)
    (hself : GoMap.find? bks selfId ≠ none)
    (hc : ext.ComputeBkCoefficient (order.map (fun e => e.2)) ext.PasswordThreshold fieldOrder
      = (gots, none))
    (hlen : gots.length = order.length) :
    ∃ peers t, buildPeers ext selfId fieldOrder order = .ok ((peers, none), t) ∧
      GoMap.WF peers ∧ peers.length = bks.length ∧
      (∀ id, id ∈ GoMap.keys peers ↔ id ∈ GoMap.keys bks) ∧
      (∀ id bk, GoMap.find? bks id = some bk →
        ∃ (i : Nat) (co : Int), order[i]? = some (id, bk) ∧ gots[i]? = some co ∧
          GoMap.find? peers id =
            some { Id := id, bk := bk, bkCoefficient := some co, messages := [] }) ∧
      ∀ (i : Nat) (id : String) (bk : BkParameter), order[i]? = some (id, bk) →
        GoMap.find? bks id = some bk ∧
        ∃ co : Int, gots[i]? = some co ∧
          GoMap.find? peers id =
            some { Id := id, bk := bk, bkCoefficient := some co, messages := [] } := by
  have hkeys : (GoMap.keys order).Perm (GoMap.keys bks) := hperm.map Prod.fst
  have hwfo : GoMap.WF order := hkeys.nodup_iff.mpr hwf
  have hselfo : GoMap.find? order selfId ≠ none := by
    intro h
    apply hself
    rw [GoMap.find_eq_none_iff] at h ⊢
    exact fun hm => h (hkeys.mem_iff.mpr hm)
  have hb := buildPeers.of_coefficients ext selfId fieldOrder order gots hwfo hselfo hc hlen
  have hk := buildPeers.keys_zipWith order gots hlen
  have hwfp : GoMap.WF (List.zipWith (fun (e : String × BkParameter) (co : Int) =>
      (e.1, ({ Id := e.1, bk := e.2, bkCoefficient := some co, messages := [] } : peer)))
      order gots) := by
    unfold GoMap.WF GoMap.keys
    rw [hk]
    exact hwfo
  have hpos : ∀ (i : Nat) (id : String) (bk : BkParameter), order[i]? = some (id, bk) →
      GoMap.find? bks id = some bk ∧
      ∃ co : Int, gots[i]? = some co ∧
        GoMap.find? (List.zipWith (fun (e : String × BkParameter) (co : Int) =>
          (e.1, ({ Id := e.1, bk := e.2, bkCoefficient := some co, messages := [] } : peer)))
          order gots) id =
          some { Id := id, bk := bk, bkCoefficient := some co, messages := [] } := by
    intro i id bk hi
    have hmem : (id, bk) ∈ order := List.getElem?_mem hi
    refine ⟨GoMap.find_of_mem bks id bk hwf (hperm.mem_iff.mp hmem), ?_⟩
    have hilt : i < gots.length := by
      rw [hlen]
      by_contra hge
      rw [List.getElem?_eq_none (Nat.le_of_not_lt hge)] at hi
      cases hi
    refine ⟨gots[i], List.getElem?_eq_getElem hilt, ?_⟩
    apply GoMap.find_of_mem _ _ _ hwfp
    apply List.getElem?_mem (n := i)
    rw [List.getElem?_zipWith, hi, List.getElem?_eq_getElem hilt]
  refine ⟨_, _, hb, hwfp, ?_, ?_, ?_, hpos⟩
  · simp [hlen, hperm.length_eq]
  · intro id
    unfold GoMap.keys at hk hkeys ⊢
    rw [hk]
    exact hkeys.mem_iff
  · intro id bk hf
    have hmem : (id, bk) ∈ order := by
      apply hperm.mem_iff.mpr
      clear hperm hwf hself hc hlen hb hk hwfp hpos hkeys hwfo hselfo
      induction bks with
      | nil => simp [GoMap.find?] at hf
      | cons e rest ih =>
        obtain ⟨a, b⟩ := e
        by_cases h : a = id
        · subst h
          simp [GoMap.find?] at hf
          simp [hf]
        · simp [GoMap.find?, h] at hf
          exact List.mem_cons_of_mem _ (ih hf)
    obtain ⟨i, hi⟩ := List.getElem?_of_mem hmem
    obtain ⟨_, co, hco, hp⟩ := hpos i id bk hi
    exact ⟨i, co, hi, hco, hp⟩

/-- Claim C9 (witness). The three-party map visited in the order `id-2`, `id-0`, `id-1`,
with one coefficient per visited parameter. -/
theorem C9_buildPeers_aligned_witness :
    ∃ peers t, buildPeers sampleExternals "id-0" 11
        [("id-2", ⟨3, 0⟩), ("id-0", ⟨1, 0⟩), ("id-1", ⟨2, 0⟩)] = .ok ((peers, none), t) ∧
      peers.length = sampleBks3.length ∧
      ∃ co : Int, GoMap.find? peers "id-1" =
        some { Id := "id-1", bk := ⟨2, 0⟩, bkCoefficient := some co, messages := [] } := by
  obtain ⟨peers, t, h, -, hl, -, hfind, -⟩ :=
    C9_buildPeers_aligned sampleExternals "id-0" 11 sampleBks3
      [("id-2", ⟨3, 0⟩), ("id-0", ⟨1, 0⟩), ("id-1", ⟨2, 0⟩)] [3, 1, 2]
      (by decide) (by decide) (by decide) (by decide) (by decide)
  obtain ⟨_, co, _, _, hp⟩ := hfind "id-1" ⟨2, 0⟩ (by decide)
  exact ⟨peers, t, h, hl, co, hp⟩

/-! ## Claim C3: a duplicate Server0 message -/

/-- Claim C3 (counterexample). The handler built by `newUserHandler0` handles
`sampleServer0` from `id-1` (one send, message recorded). Delivering the same message
again is rejected with the duplicate-message error, but only after a second outbound
send; delivering another Server0 message from `id-1` is rejected likewise after a send and
after `share` and `shareGProver` have been overwritten (7 becomes 9). -/
theorem C3_counterexample :
    (∃ t, newUserHandler0 sampleExternals samplePubkey samplePeerManager sampleBks2 []
      = .ok ((some sampleHandlerFresh, none), t)) ∧
    userHandler0.HandleMessage sampleExternals sampleHandlerFresh sampleServer0
      = .ok (sampleHandlerRecorded, none, [Effect.MustSend "id-1" (sampleUser1 7 8)]) ∧
    sampleHandlerRecorded.IsHandled "id-1" = true ∧
    userHandler0.HandleMessage sampleExternals sampleHandlerRecorded sampleServer0
      = .ok (sampleHandlerRecorded, some GoError.DuplicateMessage,
          [Effect.MustSend "id-1" (sampleUser1 7 8)]) ∧
    userHandler0.HandleMessage sampleExternals sampleHandlerRecorded sampleServer0Again
      = .ok ({ sampleHandlerRecorded with share := some 9, shareGProver := some 9 },
          some GoError.DuplicateMessage, [Effect.MustSend "id-1" (sampleUser1 9 8)]) ∧
    sampleHandlerRecorded.share ≠ some 9 := by
  refine ⟨⟨_, rfl⟩, ?_, ?_, ?_, ?_, ?_⟩ <;> decide

theorem peer.AddMessage_recorded (pr : peer) (msg m0 : Message)
    (h : pr.GetMessage msg.GetMessageType = some m0) :
    pr.AddMessage msg = (pr, some GoError.DuplicateMessage) := by
  simp [peer.AddMessage, h]

/-- Claim C3 (amended). Let a known peer's Server0 message be recorded already and let
`message` be a Server0 message from that peer, so that `IsHandled` reports true for the
peer. `HandleMessage` then returns an error and leaves the peer map, hence every recorded
message, unchanged. It is not free of effects. `share` is always overwritten by the
recomputed value. If the share computation fails, its error is returned and nothing else
changes. Otherwise `shareGProver` is overwritten; if the prover construction fails, its
error is returned. Otherwise `serverGVerifier` is overwritten; if the verifier
construction fails, its error is returned. In these three cases nothing is sent. If all
three succeed, exactly one User1 message is sent to the sender and the error returned is
the duplicate-message error. -/
theorem C3_handleMessage_duplicate (ext : Externals) (p : userHandler0) (message : Message)
    (b : BodyServer0) (pr : peer) (m0 : Message)
    (hpeer : GoMap.find? p.peers message.GetId = some pr)
    (hrec : pr.GetMessage MessageType.Type_MsgServer0 = some m0)
    (htype : message.MsgType = MessageType.Type_MsgServer0)
    (hbody : message.Body = isMessage_Body.Message_Server0 b) :
    p.IsHandled message.GetId = true ∧
    (∃ p' err t, userHandler0.HandleMessage ext p message = .ok (p', some err, t) ∧
      p'.peers = p.peers ∧ p'.bks = p.bks ∧ p'.publicKey = p.publicKey ∧
      p'.share = (ext.Compute p.passwordRequester b.PasswordResponse).1) ∧
    (∀ e, (ext.Compute p.passwordRequester b.PasswordResponse).2 = some e →
      userHandler0.HandleMessage ext p message =
        .ok ({ p with share := (ext.Compute p.passwordRequester b.PasswordResponse).1 },
          some e, [])) ∧
    ((ext.Compute p.passwordRequester b.PasswordResponse).2 = none →
      ∀ e, (ext.NewInteractiveSchnorrProver
          (ext.Compute p.passwordRequester b.PasswordResponse).1 p.curve).2 = some e →
      userHandler0.HandleMessage ext p message =
        .ok ({ p with
            share := (ext.Compute p.passwordRequester b.PasswordResponse).1
            shareGProver := (ext.NewInteractiveSchnorrProver
              (ext.Compute p.passwordRequester b.PasswordResponse).1 p.curve).1 },
          some e, [])) ∧
    ((ext.Compute p.passwordRequester b.PasswordResponse).2 = none →
      (ext.NewInteractiveSchnorrProver
          (ext.Compute p.passwordRequester b.PasswordResponse).1 p.curve).2 = none →
      ∀ e, (ext.NewInteractiveSchnorrVerifier b.ServerGProver1).2 = some e →
      userHandler0.HandleMessage ext p message =
        .ok ({ p with
            share := (ext.Compute p.passwordRequester b.PasswordResponse).1
            shareGProver := (ext.NewInteractiveSchnorrProver
              (ext.Compute p.passwordRequester b.PasswordResponse).1 p.curve).1
            serverGVerifier := (ext.NewInteractiveSchnorrVerifier b.ServerGProver1).1 },
          some e, [])) ∧
    ((ext.Compute p.passwordRequester b.PasswordResponse).2 = none →
      (ext.NewInteractiveSchnorrProver
          (ext.Compute p.passwordRequester b.PasswordResponse).1 p.curve).2 = none →
      (ext.NewInteractiveSchnorrVerifier b.ServerGProver1).2 = none →
      userHandler0.HandleMessage ext p message =
        .ok ({ p with
            share := (ext.Compute p.passwordRequester b.PasswordResponse).1
            shareGProver := (ext.NewInteractiveSchnorrProver
              (ext.Compute p.passwordRequester b.PasswordResponse).1 p.curve).1
            serverGVerifier := (ext.NewInteractiveSchnorrVerifier b.ServerGProver1).1 },
          some GoError.DuplicateMessage,
          [Effect.MustSend message.GetId
            { MsgType := MessageType.Type_MsgUser1, Id := p.peerManager.SelfID,
              Body := isMessage_Body.Message_User1
                { ShareGProver1 := ext.GetInteractiveSchnorrProver1Message
                    (ext.NewInteractiveSchnorrProver
                      (ext.Compute p.passwordRequester b.PasswordResponse).1 p.curve).1,
                  ServerGVerifier1 := ext.GetInteractiveSchnorrVerifier1Message
                    (ext.NewInteractiveSchnorrVerifier b.ServerGProver1).1 } }])) := by
  have hs0 : message.GetServer0 = some b := by simp [Message.GetServer0, hbody]
  have hadd : pr.AddMessage message = (pr, some GoError.DuplicateMessage) :=
    peer.AddMessage_recorded pr message m0 (by simpa [Message.GetMessageType, htype] using hrec)
  have hset : GoMap.set p.peers message.GetId pr = p.peers := GoMap.set_of_find _ _ _ hpeer
  refine ⟨by simp [userHandler0.IsHandled, userHandler0.MessageType, hpeer, hrec], ?_⟩
  unfold userHandler0.HandleMessage
  simp only [hpeer, hs0, hadd, hset]
  rcases hc : ext.Compute p.passwordRequester b.PasswordResponse with ⟨share, _ | e1⟩
  · rcases hpv : ext.NewInteractiveSchnorrProver share p.curve with ⟨prover, _ | e2⟩
    · rcases hv : ext.NewInteractiveSchnorrVerifier b.ServerGProver1 with ⟨verifier, _ | e3⟩
      · simp only [hc, hpv, hv]
        exact ⟨⟨_, _, _, rfl, rfl, rfl, rfl, rfl⟩, by simp, by simp, by simp, by simp⟩
      · simp only [hc, hpv, hv]
        exact ⟨⟨_, _, _, rfl, rfl, rfl, rfl, rfl⟩, by simp, by simp, by simp, by simp⟩
    · simp only [hc, hpv]
      exact ⟨⟨_, _, _, rfl, rfl, rfl, rfl, rfl⟩, by simp, by simp, by simp, by simp⟩
  · simp only [hc]
    exact ⟨⟨_, _, _, rfl, rfl, rfl, rfl, rfl⟩, by simp, by simp, by simp, by simp⟩

/-- Claim C3 (witness). The amended statement at the recorded sample handler and the
re-delivered sample message. -/
theorem C3_handleMessage_duplicate_witness :
    ∃ p' err t, userHandler0.HandleMessage sampleExternals sampleHandlerRecorded sampleServer0
        = .ok (p', some err, t) ∧ p'.peers = sampleHandlerRecorded.peers :=
  (C3_handleMessage_duplicate sampleExternals sampleHandlerRecorded sampleServer0
    { PasswordResponse := 7, ServerGProver1 := 8 }
    { Id := "id-1", bk := { x := 2, rank := 0 }, bkCoefficient := some 2,
      messages := [(MessageType.Type_MsgServer0, sampleServer0)] }
    sampleServer0 (by decide) (by decide) (by decide) (by decide)).2.1.imp
    (fun _ h => h.imp (fun _ h => h.imp (fun _ h => ⟨h.1, h.2.1⟩)))

end Alice
